import Mathlib

/-!
# Tempo map points, tempos and meters (libs/temporal/temporal/tempo.h)

A shallow embedding of the value types of `tempo.h` and of the inline member
functions of `Tempo`, `Meter`, `TempoMetric` and `TempoMapPoint`.

Conventions of the embedding.

* `superclock_t` (a 64 bit integer) and `int` are `Int`; `int8_t` members are
  `Int` values narrowed through `int8_t_of`.
* `double` arguments are idealised as exact rationals (`ℚ`), and `llrint`
  rounds to the nearest integer, ties to the even one (the default rounding
  mode).  The idealisation gives the value the code computes where the double
  operations are exact and the result is a 64 bit value.
* `superclock_ticks_per_second` is declared in `temporal/superclock.h`; the
  functions that use it take it as their first argument.
* `TempoMapPoint::Flag` is a bit mask, a `Nat`.
* The anonymous union of `TempoMapPoint` is the type `MetricSlot`: it records
  which member was written last.  A read of `_explicit` yields an
  `Option TempoMetric`; `none` is the indeterminate value obtained by reading
  a member that the union does not hold.
* 64 bit products and quotients go through `int64_t_of`.
* An iterator of `_points` is the index of its point; the member functions of
  `TempoMap` that `tempo.h` only declares are modelled from the specification
  and say so.

The last part embeds `MusicalMode::fill` of `libs/surfaces/push2/mode.cc`.
-/

set_option linter.dupNamespace false

namespace Temporal

/-! ## Positions -/

/-- Modelled from the spec: `Beats` of `temporal/beats.h`, "an ordered pair
(whole beats, ticks)". -/
structure Beats where
  beats : Int
  ticks : Int
  deriving DecidableEq, Repr

/-- Modelled from the spec: `BBT_Time` of `temporal/bbt_time.h`, the "triple
(bar, beat, tick)". -/
structure BBT_Time where
  bars : Int
  beats : Int
  ticks : Int
  deriving DecidableEq, Repr

/-! ## Machine numbers -/

/-- Conversion of an `int` to `int8_t`: the value modulo 256 in `[-128, 127]`. -/
def int8_t_of (n : Int) : Int := (n + 128) % 256 - 128

/-- The C function `llrint` on an exact value: the nearest integer, a tie going
to the even neighbour.  The C function takes a `double` and returns a
`long long`; the two agree for an argument that is a `double` and whose
nearest integer is a 64 bit value. -/
def llrint (x : ℚ) : Int :=
  if x - ⌊x⌋ < 1 / 2 then ⌊x⌋
  else if 1 / 2 < x - ⌊x⌋ then ⌊x⌋ + 1
  else if ⌊x⌋ % 2 = 0 then ⌊x⌋ else ⌊x⌋ + 1

/-! ## Tempo -/

/-- The enumeration `Tempo::Type`. -/
inductive Tempo.Type where
  | Ramped
  | Constant
  deriving DecidableEq, Repr

/-- The data members of `class Tempo`. -/
structure Tempo where
  _superclocks_per_note_type : Int
  _end_superclocks_per_note_type : Int
  _note_type : Int
  _active : Bool
  _locked_to_meter : Bool
  _clamped : Bool
  _type : Tempo.Type
  deriving DecidableEq, Repr

/-- The member `Tempo::double_npm_to_sc`:
`llrint ((superclock_ticks_per_second / npm) * 60.0)`, with the quotient and
the product taken exactly.  The code rounds each of the two to a `double`, so
the value is the code's where both are exact (as for 120 and 60 notes per
minute at 508032000 ticks per second); it is zero at `npm = 0`, where the code
divides by zero. -/
def Tempo.double_npm_to_sc (superclock_ticks_per_second : Int) (npm : ℚ) : Int :=
  llrint (((superclock_ticks_per_second : ℚ) / npm) * 60)

/-- The constructor `Tempo::Tempo (double npm, int note_type)`. -/
def Tempo.Tempo_npm (superclock_ticks_per_second : Int) (npm : ℚ) (note_type : Int) : Tempo :=
  { _superclocks_per_note_type := Tempo.double_npm_to_sc superclock_ticks_per_second npm
    _end_superclocks_per_note_type := Tempo.double_npm_to_sc superclock_ticks_per_second npm
    _note_type := int8_t_of note_type
    _active := true
    _locked_to_meter := false
    _clamped := false
    _type := Tempo.Type.Constant }

/-- The constructor `Tempo::Tempo (double npm, double enpm, int note_type)`. -/
def Tempo.Tempo_npm_enpm (superclock_ticks_per_second : Int) (npm enpm : ℚ)
    (note_type : Int) : Tempo :=
  { _superclocks_per_note_type := Tempo.double_npm_to_sc superclock_ticks_per_second npm
    _end_superclocks_per_note_type := Tempo.double_npm_to_sc superclock_ticks_per_second enpm
    _note_type := int8_t_of note_type
    _active := true
    _locked_to_meter := false
    _clamped := false
    _type := if npm ≠ enpm then Tempo.Type.Ramped else Tempo.Type.Constant }

/-- The member `Tempo::set_note_types_per_minute`. -/
def Tempo.set_note_types_per_minute (superclock_ticks_per_second : Int) (t : Tempo)
    (npm : ℚ) : Tempo :=
  { t with _superclocks_per_note_type := Tempo.double_npm_to_sc superclock_ticks_per_second npm }

/-- The member `Tempo::note_type`. -/
def Tempo.note_type (t : Tempo) : Int := t._note_type

/-- The member `Tempo::superclocks_per_note_type ()`. -/
def Tempo.superclocks_per_note_type (t : Tempo) : Int := t._superclocks_per_note_type

/-- The member `Tempo::end_superclocks_per_note_type ()`. -/
def Tempo.end_superclocks_per_note_type (t : Tempo) : Int := t._end_superclocks_per_note_type

/-- The member `Tempo::active`. -/
def Tempo.active (t : Tempo) : Bool := t._active

/-- The member `Tempo::locked_to_meter`. -/
def Tempo.locked_to_meter (t : Tempo) : Bool := t._locked_to_meter

/-- The member `Tempo::clamped`. -/
def Tempo.clamped (t : Tempo) : Bool := t._clamped

/-- The member `Tempo::type`. -/
def Tempo.type (t : Tempo) : Tempo.Type := t._type

/-- The member `Tempo::ramped`: `_type != Constant`. -/
def Tempo.ramped (t : Tempo) : Bool := t._type != Tempo.Type.Constant

/-! ## Meter -/

/-- The data members of `class Meter`. -/
structure Meter where
  _note_value : Int
  _divisions_per_bar : Int
  deriving DecidableEq, Repr

/-! ## TempoMetric -/

/-- The class `TempoMetric`: its `Tempo` and `Meter` base objects and the two
coefficients. -/
structure TempoMetric where
  toTempo : Tempo
  toMeter : Meter
  _c_per_quarter : ℚ
  _c_per_superclock : ℚ
  deriving DecidableEq, Repr

/-- The constructor `TempoMetric::TempoMetric (Tempo const & t, Meter const & m, bool ramp)`:
`Tempo (t), Meter (m), _c_per_quarter (0.0), _c_per_superclock (0.0)`. -/
def TempoMetric.TempoMetric (t : Tempo) (m : Meter) (_ramp : Bool) : TempoMetric :=
  { toTempo := t, toMeter := m, _c_per_quarter := 0, _c_per_superclock := 0 }

/-! ## TempoMapPoint -/

/-- The enumerator `TempoMapPoint::Flag::ExplicitTempo`. -/
def ExplicitTempo : Nat := 0x1

/-- The enumerator `TempoMapPoint::Flag::ExplicitMeter`. -/
def ExplicitMeter : Nat := 0x2

/-- The enumerator `TempoMapPoint::Flag::ExplicitPosition`. -/
def ExplicitPosition : Nat := 0x4

mutual
/-- The anonymous union `{ _reference; _explicit; }` of `TempoMapPoint`, with
the member that was written last.  The referenced point is held by value. An
`_explicit` of `none` is an indeterminate metric. -/
inductive MetricSlot where
  | _reference (r : TempoMapPoint)
  | _explicit (m : Option TempoMetric)
/-- The data members of `class TempoMapPoint`; `_map` is the address of the
owning map. -/
inductive TempoMapPoint where
  | mk (_flags : Nat) (slot : MetricSlot) (_sclock : Int) (_quarters : Beats)
      (_bbt : BBT_Time) (_dirty : Bool) (_floating : Bool) (_map : Nat)
end

namespace TempoMapPoint

/-- The constructor `TempoMapPoint::TempoMapPoint (TempoMap* map, Flag f, Tempo const& t,
Meter const& m, superclock_t sc, Beats const & q, BBT_Time const & bbt, bool ramp)`. -/
def TempoMapPoint_explicit (map : Nat) (f : Nat) (t : Tempo) (m : Meter) (sc : Int)
    (q : Beats) (bbt : BBT_Time) (ramp : Bool) : TempoMapPoint :=
  mk f (MetricSlot._explicit (some (TempoMetric.TempoMetric t m ramp))) sc q bbt true false map

/-- The member `TempoMapPoint::flags`. -/
def flags : TempoMapPoint → Nat
  | mk f _ _ _ _ _ _ _ => f

/-- The union of the point. -/
def slot : TempoMapPoint → MetricSlot
  | mk _ s _ _ _ _ _ _ => s

/-- The member `TempoMapPoint::sclock`. -/
def sclock : TempoMapPoint → Int
  | mk _ _ sc _ _ _ _ _ => sc

/-- The member `TempoMapPoint::quarters`. -/
def quarters : TempoMapPoint → Beats
  | mk _ _ _ q _ _ _ _ => q

/-- The member `TempoMapPoint::bbt`. -/
def bbt : TempoMapPoint → BBT_Time
  | mk _ _ _ _ b _ _ _ => b

/-- The member `TempoMapPoint::dirty`. -/
def dirty : TempoMapPoint → Bool
  | mk _ _ _ _ _ d _ _ => d

/-- The member `TempoMapPoint::floating`. -/
def floating : TempoMapPoint → Bool
  | mk _ _ _ _ _ _ fl _ => fl

/-- The member `TempoMapPoint::map`. -/
def map : TempoMapPoint → Nat
  | mk _ _ _ _ _ _ _ m => m

/-- The constructor `TempoMapPoint::TempoMapPoint (TempoMapPoint const & tmp, superclock_t sc,
Beats const & q, BBT_Time const & bbt)`. -/
def TempoMapPoint_reference (tmp : TempoMapPoint) (sc : Int) (q : Beats) (bbt : BBT_Time) :
    TempoMapPoint :=
  mk 0 (MetricSlot._reference tmp) sc q bbt true false tmp.map

/-- The member `TempoMapPoint::is_explicit_tempo`: `_flags & ExplicitTempo`. -/
def is_explicit_tempo (p : TempoMapPoint) : Bool := (p.flags &&& ExplicitTempo) != 0

/-- The member `TempoMapPoint::is_explicit_meter`: `_flags & ExplicitMeter`. -/
def is_explicit_meter (p : TempoMapPoint) : Bool := (p.flags &&& ExplicitMeter) != 0

/-- The member `TempoMapPoint::is_explicit_position`: `_flags & ExplicitPosition`. -/
def is_explicit_position (p : TempoMapPoint) : Bool := (p.flags &&& ExplicitPosition) != 0

/-- The member `TempoMapPoint::is_explicit`:
`_flags & (ExplicitMeter|ExplicitTempo|ExplicitPosition)`. -/
def is_explicit (p : TempoMapPoint) : Bool :=
  (p.flags &&& (ExplicitMeter ||| ExplicitTempo ||| ExplicitPosition)) != 0

/-- The member `TempoMapPoint::is_implicit`: `_flags == Flag (0)`. -/
def is_implicit (p : TempoMapPoint) : Bool := p.flags == 0

/-- The member `TempoMapPoint::metric`:
`is_explicit() ? _explicit : _reference->metric()`.  The result is `none` when
the member that is read is not the one the union holds: for an explicit point
whose union holds the reference the code returns the bytes of the reference as
a metric, and for a point without flags whose union holds a metric the code
follows those bytes as a pointer, which has no defined result. -/
def metric : TempoMapPoint → Option TempoMetric
  | mk fl (MetricSlot._explicit m) sc q b d flt mp =>
    if is_explicit (mk fl (MetricSlot._explicit m) sc q b d flt mp) then m else none
  | mk fl (MetricSlot._reference r) sc q b d flt mp =>
    if is_explicit (mk fl (MetricSlot._reference r) sc q b d flt mp) then none
    else metric r

/-- The member `TempoMapPoint::make_explicit`: when `!(_flags & f)`, first
`_flags = Flag (_flags|f)`, then `TempoMetric tm (metric ()); _explicit = tm;`
and `_dirty = true`. -/
def make_explicit : TempoMapPoint → Nat → TempoMapPoint
  | mk fl s sc q b d flt mp, f =>
    if fl &&& f = 0 then
      mk (fl ||| f) (MetricSlot._explicit (metric (mk (fl ||| f) s sc q b d flt mp)))
        sc q b true flt mp
    else mk fl s sc q b d flt mp

/-- The member `TempoMapPoint::set_sclock`:
`if (is_explicit()) { _sclock = sc; _dirty = true; }`. -/
def set_sclock : TempoMapPoint → Int → TempoMapPoint
  | mk fl s sc q b d flt mp, sc1 =>
    if is_explicit (mk fl s sc q b d flt mp) then mk fl s sc1 q b true flt mp
    else mk fl s sc q b d flt mp

/-- The member `TempoMapPoint::set_quarters`:
`if (is_explicit()) { _quarters = q; _dirty = true; }`. -/
def set_quarters : TempoMapPoint → Beats → TempoMapPoint
  | mk fl s sc q b d flt mp, q1 =>
    if is_explicit (mk fl s sc q b d flt mp) then mk fl s sc q1 b true flt mp
    else mk fl s sc q b d flt mp

/-- The member `TempoMapPoint::set_bbt`:
`if (is_explicit()) { _bbt = bbt; _dirty = true; }`. -/
def set_bbt : TempoMapPoint → BBT_Time → TempoMapPoint
  | mk fl s sc q b d flt mp, b1 =>
    if is_explicit (mk fl s sc q b d flt mp) then mk fl s sc q b1 true flt mp
    else mk fl s sc q b d flt mp

/-- The member `TempoMapPoint::make_implicit`: `_flags = Flag (0); _reference = &tmp;`. -/
def make_implicit : TempoMapPoint → TempoMapPoint → TempoMapPoint
  | mk _ _ sc q b d flt mp, tmp => mk 0 (MetricSlot._reference tmp) sc q b d flt mp

/-- The struct `TempoMapPoint::BadTempoMetricLookup`, the exception type the class
declares. -/
inductive BadTempoMetricLookup where
  | thrown
  deriving DecidableEq, Repr

/-- The member `BadTempoMetricLookup::what`. -/
def BadTempoMetricLookup.what (_ : BadTempoMetricLookup) : String :=
  "cannot obtain non-const Metric from implicit map point"

/-- The member `TempoMapPoint::nonconst_metric`:
`is_explicit() ? *(const_cast<TempoMetric*>(&_explicit))
               : *(const_cast<TempoMetric*>(&_reference->metric()))`.
The body has no `throw`: the call always returns, with the metric that
`metric ()` designates. -/
def nonconst_metric : TempoMapPoint → Except BadTempoMetricLookup (Option TempoMetric)
  | mk fl (MetricSlot._explicit m) sc q b d flt mp =>
    if is_explicit (mk fl (MetricSlot._explicit m) sc q b d flt mp) then Except.ok m
    else Except.ok none
  | mk fl (MetricSlot._reference r) sc q b d flt mp =>
    if is_explicit (mk fl (MetricSlot._reference r) sc q b d flt mp) then Except.ok none
    else Except.ok (metric r)

/-- The state of a point that its accessors show: `flags ()`, `metric ()`,
`sclock ()`, `quarters ()`, `bbt ()`, `dirty ()` and `floating ()`. -/
def state (p : TempoMapPoint) :
    Nat × Option TempoMetric × Int × Beats × BBT_Time × Bool × Bool :=
  (p.flags, p.metric, p.sclock, p.quarters, p.bbt, p.dirty, p.floating)

end TempoMapPoint

/-! ## Sample values -/

/-- A constant tempo of 254016000 superclocks per quarter note. -/
def sample_tempo : Tempo :=
  { _superclocks_per_note_type := 254016000
    _end_superclocks_per_note_type := 254016000
    _note_type := 4
    _active := true
    _locked_to_meter := false
    _clamped := false
    _type := Tempo.Type.Constant }

/-- The meter 4/4. -/
def sample_meter : Meter := { _note_value := 4, _divisions_per_bar := 4 }

/-- The metric of `sample_tempo` and `sample_meter`. -/
def sample_metric : TempoMetric := TempoMetric.TempoMetric sample_tempo sample_meter false

/-- An explicit point at position zero that owns `sample_metric`. -/
def sample_anchor : TempoMapPoint :=
  TempoMapPoint.TempoMapPoint_explicit 0 (ExplicitTempo ||| ExplicitMeter) sample_tempo
    sample_meter 0 ⟨0, 0⟩ ⟨1, 1, 0⟩ false

/-- An implicit point one beat later whose reference is `sample_anchor`. -/
def sample_implicit : TempoMapPoint :=
  TempoMapPoint.TempoMapPoint_reference sample_anchor 254016000 ⟨1, 0⟩ ⟨1, 2, 0⟩

/-- An explicit point whose only flag is `ExplicitTempo`. -/
def sample_tempo_point : TempoMapPoint :=
  TempoMapPoint.TempoMapPoint_explicit 0 ExplicitTempo sample_tempo sample_meter 0
    ⟨0, 0⟩ ⟨1, 1, 0⟩ false

/-! ## Integer members and derived values -/

/-- Conversion to `int64_t` (`superclock_t`, `samplepos_t`): the value modulo
`2^64` in `[-2^63, 2^63)`. -/
def int64_t_of (n : Int) : Int := (n + 2 ^ 63) % 2 ^ 64 - 2 ^ 63

/-- The member `Tempo::superclocks_per_note_type (int note_type)`:
`(_superclocks_per_note_type * _note_type) / note_type`, in 64 bit arithmetic;
`/` truncates toward zero.  The argument is not zero. -/
def Tempo.superclocks_per_note_type_int (t : Tempo) (note_type : Int) : Int :=
  int64_t_of (Int.tdiv (int64_t_of (t._superclocks_per_note_type * t._note_type)) note_type)

/-- The member `Tempo::superclocks_per_quarter_note`:
`superclocks_per_note_type (4)`. -/
def Tempo.superclocks_per_quarter_note (t : Tempo) : Int :=
  t.superclocks_per_note_type_int 4

/-- The constructor `Meter::Meter (int8_t dpb, int8_t nv)`:
`_note_value (nv), _divisions_per_bar (dpb)`. -/
def Meter.Meter (dpb nv : Int) : Temporal.Meter := { _note_value := nv, _divisions_per_bar := dpb }

/-- The member `Meter::divisions_per_bar`. -/
def Meter.divisions_per_bar (m : Temporal.Meter) : Int := m._divisions_per_bar

/-- The member `Meter::note_value`. -/
def Meter.note_value (m : Temporal.Meter) : Int := m._note_value

/-- The member `TempoMetric::c_per_superclock`. -/
def TempoMetric.c_per_superclock (tm : Temporal.TempoMetric) : ℚ := tm._c_per_superclock

/-- The member `TempoMetric::c_per_quarter`. -/
def TempoMetric.c_per_quarter (tm : Temporal.TempoMetric) : ℚ := tm._c_per_quarter

/-! ## TempoMap -/

/-- The data members `_points`, `_sample_rate`, `_dirty` and `_generation` of
`class TempoMap` (the lock and the time domain are left out). -/
structure TempoMap where
  _points : List TempoMapPoint
  _sample_rate : Int
  _dirty : Bool
  _generation : Int

/-- The struct `TempoMap::EmptyTempoMapException`. -/
inductive EmptyTempoMapException where
  | thrown
  deriving DecidableEq, Repr

/-- The member `EmptyTempoMapException::what`. -/
def EmptyTempoMapException.what (_ : EmptyTempoMapException) : String :=
  "TempoMap is empty"

/-- Modelled from the spec: `samples_to_superclock` of `temporal/superclock.h`,
the conversion "samples = superclocks · sr / R" read from samples to
superclocks. -/
def samples_to_superclock (superclock_ticks_per_second : Int) (samples sr : Int) : Int :=
  Int.tdiv (samples * superclock_ticks_per_second) sr

/-- Modelled from the spec: `superclock_to_samples` of `temporal/superclock.h`,
"samples = superclocks · sr / R". -/
def superclock_to_samples (superclock_ticks_per_second : Int) (s sr : Int) : Int :=
  Int.tdiv (s * sr) superclock_ticks_per_second

/-- Modelled from the spec: the order of `Beats` of `temporal/beats.h`, "total
order is lexicographic". -/
def Beats.lt (a b : Beats) : Bool :=
  decide (a.beats < b.beats) || (a.beats == b.beats && decide (a.ticks < b.ticks))

namespace TempoMap

/-- Modelled from the spec: the search of `iterator_at`, which is defined in
`tempo.cc`.  The points are sorted; `after p` says that `p` lies after the
position looked for.  The result counts the points up to the first one that
lies after the position. -/
def upper_bound (after : TempoMapPoint → Bool) : List TempoMapPoint → Nat
  | [] => 0
  | p :: ps => if after p then 0 else upper_bound after ps + 1

/-- Modelled from the spec: `TempoMap::iterator_at (superclock_t sc)` of
`tempo.cc`, as the index of the point it refers to.  "Empty map raises
`EmptyMap`; t before first point returns first point; t after last point
returns last point"; otherwise "the TempoMapPoint at or most immediately
preceding the given position". -/
def iterator_at (m : TempoMap) (sc : Int) : Except EmptyTempoMapException Nat :=
  match m._points with
  | [] => Except.error EmptyTempoMapException.thrown
  | p :: ps => Except.ok (upper_bound (fun x => decide (sc < x.sclock)) (p :: ps) - 1)

/-- Modelled from the spec: `TempoMap::iterator_at (Beats const &)` of
`tempo.cc`, the same search with the quarter note comparator. -/
def iterator_at_beats (m : TempoMap) (b : Beats) : Except EmptyTempoMapException Nat :=
  match m._points with
  | [] => Except.error EmptyTempoMapException.thrown
  | p :: ps => Except.ok (upper_bound (fun x => Beats.lt b x.quarters) (p :: ps) - 1)

/-- The member `TempoMap::const_iterator_at (superclock_t sc)`:
`const_cast<TempoMap*>(this)->iterator_at (sc)`. -/
def const_iterator_at (m : TempoMap) (sc : Int) : Except EmptyTempoMapException Nat :=
  m.iterator_at sc

/-- The member `TempoMap::const_point_at (samplepos_t s)`:
`*const_iterator_at (samples_to_superclock (s, _sample_rate))`.  This is the
only overload with an integer parameter; the other two take a `Beats` and a
`BBT_Time`.  The result is `none` when the iterator is not that of a point. -/
def const_point_at (superclock_ticks_per_second : Int) (m : TempoMap) (s : Int) :
    Except EmptyTempoMapException (Option TempoMapPoint) :=
  match m.const_iterator_at
      (samples_to_superclock superclock_ticks_per_second s m._sample_rate) with
  | Except.error e => Except.error e
  | Except.ok i => Except.ok (m._points[i]?)

/-- The member `TempoMap::meter_at_locked (superclock_t sc)`:
`const_point_at (sc).metric ()`, as a `Meter`. -/
def meter_at_locked (superclock_ticks_per_second : Int) (m : TempoMap) (sc : Int) :
    Except EmptyTempoMapException (Option Meter) :=
  match const_point_at superclock_ticks_per_second m sc with
  | Except.error e => Except.error e
  | Except.ok none => Except.ok none
  | Except.ok (some p) => Except.ok (p.metric.map TempoMetric.toMeter)

/-- The member `TempoMap::tempo_at_locked (superclock_t sc)`:
`const_point_at (sc).metric ()`, as a `Tempo`. -/
def tempo_at_locked (superclock_ticks_per_second : Int) (m : TempoMap) (sc : Int) :
    Except EmptyTempoMapException (Option Tempo) :=
  match const_point_at superclock_ticks_per_second m sc with
  | Except.error e => Except.error e
  | Except.ok none => Except.ok none
  | Except.ok (some p) => Except.ok (p.metric.map TempoMetric.toTempo)

/-- Modelled from the spec: the constructor `TempoMap::TempoMap (Tempo const &
initial_tempo, Meter const & initial_meter, samplecnt_t sr)` of `tempo.cc`:
"created with an initial tempo and meter anchored at position zero", the
anchor being an explicit point. -/
def TempoMap (initial_tempo : Tempo) (initial_meter : Meter) (sr : Int) : Temporal.TempoMap :=
  { _points := [TempoMapPoint.TempoMapPoint_explicit 0 (ExplicitTempo ||| ExplicitMeter)
      initial_tempo initial_meter 0 ⟨0, 0⟩ ⟨1, 1, 0⟩ false]
    _sample_rate := sr
    _dirty := false
    _generation := 0 }

/-- Modelled from the spec: `TempoMap::sample_at (Beats const &)` of
`tempo.cc`.  The enclosing point is located with `iterator_at`; on a constant
segment the superclock distance from it is "sc_at_q = q · sc_per_quarter" for
the quarter note distance `q`, whole beats and ticks (`ticks_per_beat` to the
beat); the position is converted by "samples = superclocks · sr / R".  The
result is `none` for a point without a determinate metric and for a ramped
segment, whose formula uses logarithms. -/
def sample_at (superclock_ticks_per_second ticks_per_beat : Int) (m : Temporal.TempoMap)
    (b : Beats) :
    Except EmptyTempoMapException (Option Int) :=
  match m.iterator_at_beats b with
  | Except.error e => Except.error e
  | Except.ok i =>
    match m._points[i]? with
    | none => Except.ok none
    | some p =>
      match p.metric with
      | none => Except.ok none
      | some tm =>
        if tm.toTempo.ramped then Except.ok none
        else Except.ok (some (superclock_to_samples superclock_ticks_per_second
          (p.sclock + (b.beats - p.quarters.beats) * tm.toTempo.superclocks_per_quarter_note
            + Int.tdiv ((b.ticks - p.quarters.ticks) * tm.toTempo.superclocks_per_quarter_note)
                ticks_per_beat)
          m._sample_rate))

end TempoMap

/-- A tempo of 508032000 superclocks per quarter note. -/
def sample_slow_tempo : Tempo :=
  { _superclocks_per_note_type := 508032000
    _end_superclocks_per_note_type := 508032000
    _note_type := 4
    _active := true
    _locked_to_meter := false
    _clamped := false
    _type := Tempo.Type.Constant }

/-- A map at 48000 samples per second with two explicit points: `sample_anchor`
at superclock 0 with `sample_tempo`, and a point with `sample_slow_tempo` four
quarter notes later, at superclock 1016064000. -/
def sample_map : TempoMap :=
  { _points := [sample_anchor,
      TempoMapPoint.TempoMapPoint_explicit 0 ExplicitTempo sample_slow_tempo sample_meter
        1016064000 ⟨4, 0⟩ ⟨2, 1, 0⟩ false]
    _sample_rate := 48000
    _dirty := false
    _generation := 0 }

/-! ## Further members of `TempoMapPoint` and `Meter` -/

/-- The member `TempoMapPoint::superclocks_per_note_type (int8_t note_type)`:
`_explicit.superclocks_per_note_type (note_type)` when `is_explicit ()`, else
`_reference->superclocks_per_note_type (note_type)`.  The argument is converted
to `int8_t`; the call on `_explicit` is that of
`Tempo::superclocks_per_note_type (int)`.  The result is `none` when the member
that is read is not the one the union holds. -/
def TempoMapPoint.superclocks_per_note_type : TempoMapPoint → Int → Option Int
  | mk fl (MetricSlot._explicit m) sc q b d flt mp, note_type =>
    if is_explicit (mk fl (MetricSlot._explicit m) sc q b d flt mp) then
      m.map (fun tm => tm.toTempo.superclocks_per_note_type_int (int8_t_of note_type))
    else none
  | mk fl (MetricSlot._reference r) sc q b d flt mp, note_type =>
    if is_explicit (mk fl (MetricSlot._reference r) sc q b d flt mp) then none
    else TempoMapPoint.superclocks_per_note_type r (int8_t_of note_type)

/-- The member `TempoMapPoint::tempo`: `Tempo tempo () const { return metric (); }`,
the `Tempo` base object of the metric. -/
def TempoMapPoint.tempo (p : TempoMapPoint) : Option Tempo :=
  p.metric.map TempoMetric.toTempo

/-- The member `TempoMapPoint::meter`: `Tempo meter () const { return metric (); }`.
The declared return type is `Tempo`, so the value returned is the `Tempo` base
object of the metric. -/
def TempoMapPoint.meter (p : TempoMapPoint) : Option Tempo :=
  p.metric.map TempoMetric.toTempo

/-- The member `Meter::operator==`: `_divisions_per_bar == other.divisions_per_bar ()
&& _note_value == other.note_value ()`. -/
def Meter.operator_eq (self other : Temporal.Meter) : Bool :=
  self._divisions_per_bar == other.divisions_per_bar && self._note_value == other.note_value

/-- The member `Meter::operator!=`: `_divisions_per_bar != other.divisions_per_bar ()
|| _note_value != other.note_value ()`. -/
def Meter.operator_ne (self other : Temporal.Meter) : Bool :=
  self._divisions_per_bar != other.divisions_per_bar || self._note_value != other.note_value

/-- The member `Meter::operator=`: when `&other != this`, both members are
copied from `other`; the result is `*this`.  The argument `other_is_this` says
whether `other` is the object assigned to. -/
def Meter.operator_assign (self other : Temporal.Meter) (other_is_this : Bool) :
    Temporal.Meter :=
  if other_is_this then self
  else { self with _divisions_per_bar := other._divisions_per_bar
                   _note_value := other._note_value }

/-- A meter of three eighth notes to the bar. -/
def sample_meter_three_eight : Meter := Meter.Meter 3 8

/-- An explicit point at position zero whose metric has `sample_tempo` and the
meter 3/8. -/
def sample_meter_point : TempoMapPoint :=
  TempoMapPoint.TempoMapPoint_explicit 0 (ExplicitTempo ||| ExplicitMeter) sample_tempo
    sample_meter_three_eight 0 ⟨0, 0⟩ ⟨1, 1, 0⟩ false

end Temporal

/-! # Musical modes (libs/surfaces/push2/mode.cc) -/

/-- Modelled from the spec: the enumeration `MusicalMode::Type` of `mode.h`,
which is not among the sources; its enumerators are the case labels of
`MusicalMode::fill`, in their order there. -/
inductive MusicalMode.Type where
  | Random
  | Dorian
  | Ionian
  | Phrygian
  | Lydian
  | Mixolydian
  | Aeolian
  | Locrian
  | PentatonicMajor
  | PentatonicMinor
  | MajorChord
  | MinorChord
  | Min7
  | Sus4
  | Chromatic
  | BluesScale
  | NeapolitanMinor
  | NeapolitanMajor
  | Oriental
  | DoubleHarmonic
  | Enigmatic
  | Hirajoshi
  | HungarianMinor
  | HungarianMajor
  | Kumoi
  | Iwato
  | Hindu
  | Spanish8Tone
  | Pelog
  | HungarianGypsy
  | Overtone
  | LeadingWholeTone
  | Arabian
  | Balinese
  | Gypsy
  | Mohammedan
  | Javanese
  | Persian
  | Algerian
  deriving DecidableEq, Repr

/-- The member `steps` of `MusicalMode`, "distances from root, expressed in
fractional whole tones"; the values are exact. -/
structure MusicalMode where
  steps : List ℚ
  deriving DecidableEq, Repr

/-- The function `MusicalMode::fill`: `m.steps.clear ()`, then the
`push_back` calls of the case of `t`, in their order.  Every case ends in
`break`. -/
def MusicalMode.fill (m : MusicalMode) (t : MusicalMode.Type) : MusicalMode :=
  let cleared : MusicalMode := { m with steps := [] }
  match t with
  | Type.Random => { cleared with steps := cleared.steps ++ [0.0] }
  | Type.Dorian => { cleared with steps := cleared.steps ++ [1.0, 1.5, 2.0, 3.0, 4.0, 4.5] }
  | Type.Ionian => { cleared with steps := cleared.steps ++ [1.0, 2.0, 2.5, 3.5, 4.5, 5.5] }
  | Type.Phrygian => { cleared with steps := cleared.steps ++ [0.5, 1.5, 2.5, 3.5, 4.0, 5.0] }
  | Type.Lydian => { cleared with steps := cleared.steps ++ [1.0, 2.0, 3.0, 3.5, 4.5, 5.5] }
  | Type.Mixolydian => { cleared with steps := cleared.steps ++ [1.0, 2.0, 2.5, 3.5, 4.5, 5.0] }
  | Type.Aeolian => { cleared with steps := cleared.steps ++ [1.0, 1.5, 2.5, 3.5, 4.0, 5.0] }
  | Type.Locrian => { cleared with steps := cleared.steps ++ [0.5, 1.5, 2.0, 3.0, 4.0, 5.0] }
  | Type.PentatonicMajor => { cleared with steps := cleared.steps ++ [1.0, 2.0, 2.5, 3.5] }
  | Type.PentatonicMinor => { cleared with steps := cleared.steps ++ [1.5, 2.5, 3.5, 5.0] }
  | Type.MajorChord => { cleared with steps := cleared.steps ++ [2.0, 3.5] }
  | Type.MinorChord => { cleared with steps := cleared.steps ++ [1.5, 3.5] }
  | Type.Min7 => { cleared with steps := cleared.steps ++ [1.5, 3.5, 5.0] }
  | Type.Sus4 => { cleared with steps := cleared.steps ++ [2.5, 3.5] }
  | Type.Chromatic => { cleared with steps := cleared.steps ++ [0.5, 1.0, 1.5, 2.0, 2.5, 3.0, 3.5, 4.0, 4.5, 5.0, 5.5] }
  | Type.BluesScale => { cleared with steps := cleared.steps ++ [1.0, 1.5, 2.5, 3, 3.5, 4.5, 5.0, 5.5] }
  | Type.NeapolitanMinor => { cleared with steps := cleared.steps ++ [0.5, 1.5, 2.5, 2.5, 4.0, 5.5] }
  | Type.NeapolitanMajor => { cleared with steps := cleared.steps ++ [0.5, 1.5, 2.5, 3.5, 4.5, 5.5] }
  | Type.Oriental => { cleared with steps := cleared.steps ++ [0.5, 2.0, 2.5, 3.0, 4.5, 5.0] }
  | Type.DoubleHarmonic => { cleared with steps := cleared.steps ++ [0.5, 2.0, 2.5, 3.5, 4.0, 5.5] }
  | Type.Enigmatic => { cleared with steps := cleared.steps ++ [0.5, 2.0, 3.0, 4.0, 5.0, 5.5] }
  | Type.Hirajoshi => { cleared with steps := cleared.steps ++ [1.0, 1.5, 3.5, 4.0] }
  | Type.HungarianMinor => { cleared with steps := cleared.steps ++ [1.0, 1.5, 3.0, 3.5, 4.0, 5.5] }
  | Type.HungarianMajor => { cleared with steps := cleared.steps ++ [1.0, 2.0, 3.0, 3.5, 4.0, 5.0] }
  | Type.Kumoi => { cleared with steps := cleared.steps ++ [0.5, 2.5, 3.5, 4.0] }
  | Type.Iwato => { cleared with steps := cleared.steps ++ [0.5, 2.5, 3.0, 5.0] }
  | Type.Hindu => { cleared with steps := cleared.steps ++ [1.0, 2.0, 2.5, 3.5, 4.0, 5.0] }
  | Type.Spanish8Tone => { cleared with steps := cleared.steps ++ [0.5, 1.5, 2.0, 2.5, 3.0, 4.0, 5.0] }
  | Type.Pelog => { cleared with steps := cleared.steps ++ [0.5, 1.5, 3.5, 5.0] }
  | Type.HungarianGypsy => { cleared with steps := cleared.steps ++ [1.0, 1.5, 3.0, 3.5, 4.0, 5.0] }
  | Type.Overtone => { cleared with steps := cleared.steps ++ [1.0, 2.0, 3.0, 3.5, 4.5, 5.0] }
  | Type.LeadingWholeTone => { cleared with steps := cleared.steps ++ [1.0, 2.0, 3.0, 4.0, 5.0, 5.5] }
  | Type.Arabian => { cleared with steps := cleared.steps ++ [1.0, 2.0, 2.5, 3.0, 4.0, 5.0] }
  | Type.Balinese => { cleared with steps := cleared.steps ++ [0.5, 1.5, 3.5, 4.0] }
  | Type.Gypsy => { cleared with steps := cleared.steps ++ [0.5, 2.0, 2.5, 3.5, 4.0, 5.5] }
  | Type.Mohammedan => { cleared with steps := cleared.steps ++ [1.0, 1.5, 2.5, 3.5, 4.0, 5.5] }
  | Type.Javanese => { cleared with steps := cleared.steps ++ [0.5, 1.5, 2.5, 3.5, 4.5, 5.0] }
  | Type.Persian => { cleared with steps := cleared.steps ++ [0.5, 2.0, 2.5, 3.0, 4.0, 5.5] }
  | Type.Algerian => { cleared with steps := cleared.steps ++ [1.0, 1.5, 3.0, 3.5, 4.0, 5.5, 6.0, 7.0, 7.5, 8.5] }

/-- The constructor `MusicalMode::MusicalMode (MusicalMode::Type t)`:
`fill (*this, t)`. -/
def MusicalMode.MusicalMode (t : MusicalMode.Type) : MusicalMode :=
  MusicalMode.fill { steps := [] } t

namespace Temporal

/-! ## Bit masks -/

theorem or_and_self_right (a f : Nat) : (a ||| f) &&& f = f := by
  apply Nat.eq_of_testBit_eq
  intro i
  simp only [Nat.testBit_and, Nat.testBit_or]
  cases a.testBit i <;> cases f.testBit i <;> rfl

theorem or_and_self_left (a f : Nat) : (a ||| f) &&& a = a := by
  apply Nat.eq_of_testBit_eq
  intro i
  simp only [Nat.testBit_and, Nat.testBit_or]
  cases a.testBit i <;> cases f.testBit i <;> rfl

theorem or_eq_of_and_eq (a f : Nat) (h : a &&& f = f) : a ||| f = a := by
  apply Nat.eq_of_testBit_eq
  intro i
  have hi := congrArg (fun x => x.testBit i) h
  simp only [Nat.testBit_and, Nat.testBit_or] at hi ⊢
  revert hi
  cases a.testBit i <;> cases f.testBit i <;> simp

theorem and_two_pow (a k : Nat) : a &&& 2 ^ k = 0 ∨ a &&& 2 ^ k = 2 ^ k := by
  rcases Bool.eq_false_or_eq_true (a.testBit k) with h | h
  · right
    apply Nat.eq_of_testBit_eq
    intro i
    simp only [Nat.testBit_and, Nat.testBit_two_pow]
    by_cases hik : k = i
    · subst hik; simp [h]
    · simp [hik]
  · left
    apply Nat.eq_of_testBit_eq
    intro i
    simp only [Nat.testBit_and, Nat.testBit_two_pow, Nat.zero_testBit]
    by_cases hik : k = i
    · subst hik; simp [h]
    · simp [hik]

/-- Each of the three enumerators is either absent from a flags word or wholly
in it. -/
theorem and_single_flag (a f : Nat)
    (hf : f = ExplicitTempo ∨ f = ExplicitMeter ∨ f = ExplicitPosition) :
    a &&& f = 0 ∨ a &&& f = f := by
  rcases hf with h | h | h
  · subst h; exact and_two_pow a 0
  · subst h; exact and_two_pow a 1
  · subst h; exact and_two_pow a 2

/-! ## Reading the metric of a point -/

namespace TempoMapPoint

theorem is_explicit_mk (fl : Nat) (s : MetricSlot) (sc : Int) (q : Beats) (b : BBT_Time)
    (d flt : Bool) (mp : Nat) :
    is_explicit (mk fl s sc q b d flt mp) =
      ((fl &&& (ExplicitMeter ||| ExplicitTempo ||| ExplicitPosition)) != 0) := rfl

/-- What `metric ()` returns on an explicit point: the `_explicit` member. -/
theorem metric_of_explicit (p : TempoMapPoint) (h : p.is_explicit = true) :
    p.metric = (match p.slot with
      | MetricSlot._explicit m => m
      | MetricSlot._reference _ => none) := by
  cases p with
  | mk fl s sc q b d flt mp =>
    cases s <;> simp [metric, slot, h]

/-- What `metric ()` returns on a point that is not explicit: the metric of the
point `_reference` designates. -/
theorem metric_of_not_explicit (p : TempoMapPoint) (h : p.is_explicit = false) :
    p.metric = (match p.slot with
      | MetricSlot._explicit _ => none
      | MetricSlot._reference r => r.metric) := by
  cases p with
  | mk fl s sc q b d flt mp =>
    cases s <;> simp [metric, slot, h]

/-- A flags word of zero is not explicit. -/
theorem not_explicit_of_implicit (p : TempoMapPoint) (h : p.is_implicit = true) :
    p.is_explicit = false := by
  cases p with
  | mk fl s sc q b d flt mp =>
    simp only [is_implicit, flags, beq_iff_eq] at h
    subst h
    simp [is_explicit, flags]

/-- The guard of `make_explicit` when it fires. -/
theorem make_explicit_of_and_eq_zero (fl : Nat) (s : MetricSlot) (sc : Int) (q : Beats)
    (b : BBT_Time) (d flt : Bool) (mp : Nat) (f : Nat) (h : fl &&& f = 0) :
    make_explicit (mk fl s sc q b d flt mp) f =
      mk (fl ||| f) (MetricSlot._explicit (metric (mk (fl ||| f) s sc q b d flt mp)))
        sc q b true flt mp := by
  simp [make_explicit, h]

/-- The guard of `make_explicit` when it does not fire: nothing changes. -/
theorem make_explicit_of_and_ne_zero (p : TempoMapPoint) (f : Nat)
    (h : p.flags &&& f ≠ 0) : make_explicit p f = p := by
  cases p with
  | mk fl s sc q b d flt mp =>
    simp only [flags] at h
    simp [make_explicit, h]

/-- On an implicit point that holds a reference, a call of `make_explicit` with
a flag among the three leaves an indeterminate metric in the slot: `metric ()`
is evaluated after the flags are set, so it reads `_explicit`. -/
theorem make_explicit_of_reference (r : TempoMapPoint) (sc : Int) (q : Beats) (b : BBT_Time)
    (d flt : Bool) (mp : Nat) (f : Nat)
    (hf : f &&& (ExplicitMeter ||| ExplicitTempo ||| ExplicitPosition) ≠ 0) :
    make_explicit (mk 0 (MetricSlot._reference r) sc q b d flt mp) f =
      mk f (MetricSlot._explicit none) sc q b true flt mp := by
  rw [make_explicit_of_and_eq_zero _ _ _ _ _ _ _ _ _ (Nat.zero_and f)]
  simp [metric, is_explicit, flags, hf]

/-- A second call of `make_explicit` with the same non-zero flag changes
nothing. -/
theorem make_explicit_twice_of_ne_zero (p : TempoMapPoint) (f : Nat) (hf : f ≠ 0) :
    make_explicit (make_explicit p f) f = make_explicit p f := by
  cases p with
  | mk fl s sc q b d flt mp =>
    by_cases h : fl &&& f = 0
    · rw [make_explicit_of_and_eq_zero _ _ _ _ _ _ _ _ _ h]
      apply make_explicit_of_and_ne_zero
      simp only [flags, or_and_self_right]
      exact hf
    · have h2 : make_explicit (mk fl s sc q b d flt mp) f = mk fl s sc q b d flt mp :=
        make_explicit_of_and_ne_zero _ _ h
      rw [h2, h2]

end TempoMapPoint

/-! ## Claims on `TempoMapPoint` -/

/-- C1, at the point `sample_implicit`, which is implicit and refers to
`sample_anchor`: after `make_explicit (ExplicitTempo)` the point is explicit,
but `metric ()` is not the metric of the referenced point, `sample_metric`.
The flags are already set when `metric ()` is read, so the read goes to the
`_explicit` member of the union, which holds the reference. -/
theorem make_explicit_sample_implicit :
    sample_implicit.is_implicit = true ∧
    sample_implicit.slot = MetricSlot._reference sample_anchor ∧
    sample_implicit.metric = some sample_metric ∧
    sample_anchor.metric = some sample_metric ∧
    (sample_implicit.make_explicit ExplicitTempo).is_explicit = true ∧
    (sample_implicit.make_explicit ExplicitTempo).metric = none ∧
    (sample_implicit.make_explicit ExplicitTempo).metric ≠ sample_anchor.metric := by
  refine ⟨rfl, rfl, ?_, ?_, ?_, ?_, ?_⟩ <;>
    simp [sample_implicit, sample_anchor, TempoMapPoint.TempoMapPoint_reference,
      TempoMapPoint.TempoMapPoint_explicit, TempoMapPoint.make_explicit,
      TempoMapPoint.metric, TempoMapPoint.is_explicit, TempoMapPoint.flags,
      ExplicitTempo, ExplicitMeter, ExplicitPosition, sample_metric]

/-- C2, as stated, fails: `sample_tempo_point` has the flags `ExplicitTempo`,
and after `make_explicit (ExplicitTempo|ExplicitMeter)` its flags are still
`ExplicitTempo` alone, so `ExplicitMeter` is not set and the flags are not
`flags_before | f`. -/
theorem make_explicit_overlapping_flags :
    sample_tempo_point.flags = ExplicitTempo ∧
    (sample_tempo_point.make_explicit (ExplicitTempo ||| ExplicitMeter)).flags
      = ExplicitTempo ∧
    (sample_tempo_point.make_explicit (ExplicitTempo ||| ExplicitMeter)).flags
      &&& ExplicitMeter = 0 ∧
    (sample_tempo_point.make_explicit (ExplicitTempo ||| ExplicitMeter)).flags
      ≠ sample_tempo_point.flags ||| (ExplicitTempo ||| ExplicitMeter) := by
  refine ⟨rfl, ?_, ?_, ?_⟩ <;>
    simp [sample_tempo_point, TempoMapPoint.TempoMapPoint_explicit,
      TempoMapPoint.make_explicit, TempoMapPoint.flags, ExplicitTempo, ExplicitMeter]

/-- C2, amended: for every point `p` and every `f` that is one of the three
flags, or shares no flag with `p.flags ()`, or lies wholly within
`p.flags ()`, after `p.make_explicit (f)` the flags are `flags_before | f`,
every bit of `f` is set, and every flag that was set before is still set. -/
theorem make_explicit_flags (p : TempoMapPoint) (f : Nat)
    (hf : (f = ExplicitTempo ∨ f = ExplicitMeter ∨ f = ExplicitPosition) ∨
      p.flags &&& f = 0 ∨ p.flags &&& f = f) :
    (p.make_explicit f).flags = p.flags ||| f ∧
    (p.make_explicit f).flags &&& f = f ∧
    (p.make_explicit f).flags &&& p.flags = p.flags := by
  have h : p.flags &&& f = 0 ∨ p.flags &&& f = f := by
    rcases hf with h | h
    · exact and_single_flag _ _ h
    · exact h
  have key : (p.make_explicit f).flags = p.flags ||| f := by
    cases p with
    | mk fl s sc q b d flt mp =>
      simp only [TempoMapPoint.flags] at h ⊢
      by_cases h0 : fl &&& f = 0
      · rw [TempoMapPoint.make_explicit_of_and_eq_zero _ _ _ _ _ _ _ _ _ h0]
      · have hff : fl &&& f = f := h.resolve_left h0
        rw [TempoMapPoint.make_explicit_of_and_ne_zero _ _ h0, or_eq_of_and_eq _ _ hff]
  rw [key]
  exact ⟨rfl, or_and_self_right _ _, or_and_self_left _ _⟩

/-- The amended C2 at `sample_tempo_point` and the flag `ExplicitMeter`. -/
theorem make_explicit_flags_witness :
    (sample_tempo_point.make_explicit ExplicitMeter).flags
        = sample_tempo_point.flags ||| ExplicitMeter ∧
    (sample_tempo_point.make_explicit ExplicitMeter).flags &&& ExplicitMeter
        = ExplicitMeter ∧
    (sample_tempo_point.make_explicit ExplicitMeter).flags &&& sample_tempo_point.flags
        = sample_tempo_point.flags :=
  make_explicit_flags sample_tempo_point ExplicitMeter (Or.inl (Or.inr (Or.inl rfl)))

/-- C3: `make_explicit` is idempotent.  For every point `p` and every flag `f`
(a value other than `Flag (0)`, which names no flag), the point after two calls
of `p.make_explicit (f)` is the point after one call: its state (flags, metric,
sclock, quarters, bbt, dirty, floating), its union and its map are the same. -/
theorem make_explicit_idempotent (p : TempoMapPoint) (f : Nat) (hf : f ≠ 0) :
    (p.make_explicit f).make_explicit f = p.make_explicit f ∧
    ((p.make_explicit f).make_explicit f).state = (p.make_explicit f).state := by
  have h := TempoMapPoint.make_explicit_twice_of_ne_zero p f hf
  exact ⟨h, by rw [h]⟩

/-- C3 at `sample_anchor`, whose flags are `ExplicitTempo|ExplicitMeter`, and
the flag `ExplicitPosition`: the first call sets the flag, the second changes
nothing. -/
theorem make_explicit_idempotent_witness :
    sample_anchor.flags = 3 ∧
    (sample_anchor.make_explicit ExplicitPosition).flags = 7 ∧
    (sample_anchor.make_explicit ExplicitPosition).make_explicit ExplicitPosition
      = sample_anchor.make_explicit ExplicitPosition ∧
    ((sample_anchor.make_explicit ExplicitPosition).make_explicit ExplicitPosition).state
      = (sample_anchor.make_explicit ExplicitPosition).state :=
  have h := make_explicit_idempotent sample_anchor ExplicitPosition (by decide)
  ⟨rfl, rfl, h.1, h.2⟩

/-- C4: on an implicit point (`flags == 0`) `set_sclock`, `set_quarters` and
`set_bbt` change nothing, whatever their argument. -/
theorem setters_ignored_on_implicit (p : TempoMapPoint) (h : p.is_implicit = true)
    (sc : Int) (q : Beats) (b : BBT_Time) :
    p.set_sclock sc = p ∧ p.set_quarters q = p ∧ p.set_bbt b = p := by
  have he := TempoMapPoint.not_explicit_of_implicit p h
  cases p with
  | mk fl s sc0 q0 b0 d flt mp =>
    simp [TempoMapPoint.set_sclock, TempoMapPoint.set_quarters, TempoMapPoint.set_bbt, he]

/-- C4 at `sample_implicit`. -/
theorem setters_ignored_on_implicit_witness :
    sample_implicit.set_sclock 7 = sample_implicit ∧
    sample_implicit.set_quarters ⟨3, 0⟩ = sample_implicit ∧
    sample_implicit.set_bbt ⟨2, 1, 0⟩ = sample_implicit :=
  setters_ignored_on_implicit sample_implicit rfl 7 ⟨3, 0⟩ ⟨2, 1, 0⟩

/-- C5: on an explicit point (at least one of the three flags set)
`set_sclock (sc)` makes `sclock ()` equal to `sc` and `dirty ()` true and
leaves flags, union, metric, quarters, bbt, floating and map as they were;
`set_quarters` changes only quarters and dirty, `set_bbt` only bbt and
dirty. -/
theorem setters_on_explicit (p : TempoMapPoint) (h : p.is_explicit = true)
    (sc : Int) (q : Beats) (b : BBT_Time) :
    ((p.set_sclock sc).sclock = sc ∧ (p.set_sclock sc).dirty = true ∧
      (p.set_sclock sc).flags = p.flags ∧ (p.set_sclock sc).slot = p.slot ∧
      (p.set_sclock sc).metric = p.metric ∧ (p.set_sclock sc).quarters = p.quarters ∧
      (p.set_sclock sc).bbt = p.bbt ∧ (p.set_sclock sc).floating = p.floating ∧
      (p.set_sclock sc).map = p.map) ∧
    ((p.set_quarters q).quarters = q ∧ (p.set_quarters q).dirty = true ∧
      (p.set_quarters q).flags = p.flags ∧ (p.set_quarters q).slot = p.slot ∧
      (p.set_quarters q).metric = p.metric ∧ (p.set_quarters q).sclock = p.sclock ∧
      (p.set_quarters q).bbt = p.bbt ∧ (p.set_quarters q).floating = p.floating ∧
      (p.set_quarters q).map = p.map) ∧
    ((p.set_bbt b).bbt = b ∧ (p.set_bbt b).dirty = true ∧
      (p.set_bbt b).flags = p.flags ∧ (p.set_bbt b).slot = p.slot ∧
      (p.set_bbt b).metric = p.metric ∧ (p.set_bbt b).sclock = p.sclock ∧
      (p.set_bbt b).quarters = p.quarters ∧ (p.set_bbt b).floating = p.floating ∧
      (p.set_bbt b).map = p.map) := by
  cases p with
  | mk fl s sc0 q0 b0 d flt mp =>
    have h0 := h
    rw [TempoMapPoint.is_explicit_mk] at h0
    cases s <;>
      simp [TempoMapPoint.set_sclock, TempoMapPoint.set_quarters, TempoMapPoint.set_bbt, h,
        h0, TempoMapPoint.is_explicit_mk,
        TempoMapPoint.sclock, TempoMapPoint.dirty, TempoMapPoint.flags, TempoMapPoint.slot,
        TempoMapPoint.metric, TempoMapPoint.quarters, TempoMapPoint.bbt,
        TempoMapPoint.floating, TempoMapPoint.map]

/-- C5 at `sample_anchor`: the first of the facts, for `set_sclock`, and the
new values of `set_quarters` and `set_bbt`. -/
theorem setters_on_explicit_witness :
    (sample_anchor.set_sclock 9).sclock = 9 ∧
    (sample_anchor.set_quarters ⟨2, 0⟩).quarters = ⟨2, 0⟩ ∧
    (sample_anchor.set_bbt ⟨1, 3, 0⟩).bbt = ⟨1, 3, 0⟩ :=
  have h := setters_on_explicit sample_anchor (by decide) 9 ⟨2, 0⟩ ⟨1, 3, 0⟩
  ⟨h.1.1, h.2.1.1, h.2.2.1⟩

/-- C6: after `p.make_implicit (r)` the flags of `p` are empty, `is_implicit ()`
holds and `is_explicit ()` does not, `p.metric ()` is `r.metric ()`, and sclock,
quarters and bbt (and dirty, floating, map) are unchanged. -/
theorem make_implicit_spec (p r : TempoMapPoint) :
    (p.make_implicit r).flags = 0 ∧
    (p.make_implicit r).is_implicit = true ∧
    (p.make_implicit r).is_explicit = false ∧
    (p.make_implicit r).metric = r.metric ∧
    (p.make_implicit r).sclock = p.sclock ∧
    (p.make_implicit r).quarters = p.quarters ∧
    (p.make_implicit r).bbt = p.bbt ∧
    (p.make_implicit r).dirty = p.dirty ∧
    (p.make_implicit r).floating = p.floating ∧
    (p.make_implicit r).map = p.map := by
  cases p with
  | mk fl s sc q b d flt mp =>
    simp [TempoMapPoint.make_implicit, TempoMapPoint.flags, TempoMapPoint.is_implicit,
      TempoMapPoint.is_explicit, TempoMapPoint.metric, TempoMapPoint.sclock,
      TempoMapPoint.quarters, TempoMapPoint.bbt, TempoMapPoint.dirty,
      TempoMapPoint.floating, TempoMapPoint.map]

namespace TempoMapPoint

/-- The function `nonconst_metric` never throws: it returns what `metric ()`
designates, on explicit and on implicit points alike. -/
theorem nonconst_metric_eq (p : TempoMapPoint) : p.nonconst_metric = Except.ok p.metric := by
  cases p with
  | mk fl s sc q b d flt mp =>
    cases s <;> simp only [nonconst_metric, metric] <;> split <;> rfl

end TempoMapPoint

/-- C7, at the implicit point `sample_implicit`: `nonconst_metric ()` does not
fail with `BadTempoMetricLookup`; it returns the metric of the referenced
point `sample_anchor`. -/
theorem nonconst_metric_sample_implicit :
    sample_implicit.is_implicit = true ∧
    sample_implicit.nonconst_metric = Except.ok (some sample_metric) ∧
    sample_implicit.nonconst_metric ≠ Except.error TempoMapPoint.BadTempoMetricLookup.thrown := by
  refine ⟨rfl, ?_, ?_⟩ <;>
    simp [sample_implicit, sample_anchor, TempoMapPoint.TempoMapPoint_reference,
      TempoMapPoint.TempoMapPoint_explicit, TempoMapPoint.nonconst_metric,
      TempoMapPoint.metric, TempoMapPoint.is_explicit, TempoMapPoint.flags, ExplicitTempo, ExplicitMeter, ExplicitPosition, sample_metric]

/-! ## Rounding -/

/-- An integer rounds to itself. -/
theorem llrint_intCast (n : Int) : llrint (n : ℚ) = n := by
  unfold llrint
  simp

namespace Tempo

/-- At 60 notes per minute a note lasts `superclock_ticks_per_second`. -/
theorem double_npm_to_sc_sixty (R : Int) : double_npm_to_sc R 60 = R := by
  unfold double_npm_to_sc
  have h : ((R : ℚ) / 60) * 60 = (R : ℚ) := by field_simp
  rw [h, llrint_intCast]

end Tempo

/-! ## Claims on `Tempo` -/

/-- C8, as stated, fails.  With 508032000 superclock ticks per second,
`Tempo (120, 120 + 2^-30, 4)` is built from two positive rates that differ, so
its type is `Ramped`; both rates round to 254016000 superclocks per note, so
its start and end values are equal. -/
theorem ramped_with_equal_superclocks :
    (0 : ℚ) < 120 ∧ (0 : ℚ) < 120 + 1 / 2 ^ 30 ∧
    (Tempo.Tempo_npm_enpm 508032000 120 (120 + 1 / 2 ^ 30) 4).ramped = true ∧
    (Tempo.Tempo_npm_enpm 508032000 120 (120 + 1 / 2 ^ 30) 4).superclocks_per_note_type
      = 254016000 ∧
    (Tempo.Tempo_npm_enpm 508032000 120 (120 + 1 / 2 ^ 30) 4).end_superclocks_per_note_type
      = 254016000 := by
  have hf1 : ⌊((508032000 : Int) : ℚ) / 120 * 60⌋ = 254016000 := by
    rw [Int.floor_eq_iff]; constructor <;> norm_num
  have hf2 : ⌊((508032000 : Int) : ℚ) / (120 + 1 / 2 ^ 30) * 60⌋ = 254015999 := by
    rw [Int.floor_eq_iff]; constructor <;> norm_num
  refine ⟨by norm_num, by norm_num, ?_, ?_, ?_⟩
  · simp [Tempo.Tempo_npm_enpm, Tempo.ramped]
  · simp only [Tempo.Tempo_npm_enpm, Tempo.superclocks_per_note_type, Tempo.double_npm_to_sc,
      llrint, hf1]
    norm_num
  · simp only [Tempo.Tempo_npm_enpm, Tempo.end_superclocks_per_note_type,
      Tempo.double_npm_to_sc, llrint, hf2]
    norm_num

/-- C8, amended: for all `npm, enpm > 0` and note types, `Tempo (npm, note_type)`
is `Constant` with equal start and end values, and `Tempo (npm, enpm, note_type)`
has `ramped ()` true exactly when `npm != enpm`: its start and end values are
equal when the rates are, and a start value that differs from the end value
makes `ramped ()` true. -/
theorem constructors_ramped (R : Int) (npm enpm : ℚ) (note_type : Int)
    (_hnpm : 0 < npm) (_henpm : 0 < enpm) :
    ((Tempo.Tempo_npm R npm note_type).ramped = false ∧
      (Tempo.Tempo_npm R npm note_type).type = Tempo.Type.Constant ∧
      (Tempo.Tempo_npm R npm note_type).superclocks_per_note_type
        = (Tempo.Tempo_npm R npm note_type).end_superclocks_per_note_type) ∧
    (((Tempo.Tempo_npm_enpm R npm enpm note_type).ramped = true ↔ npm ≠ enpm) ∧
      (npm = enpm →
        (Tempo.Tempo_npm_enpm R npm enpm note_type).superclocks_per_note_type
          = (Tempo.Tempo_npm_enpm R npm enpm note_type).end_superclocks_per_note_type) ∧
      ((Tempo.Tempo_npm_enpm R npm enpm note_type).superclocks_per_note_type
          ≠ (Tempo.Tempo_npm_enpm R npm enpm note_type).end_superclocks_per_note_type →
        (Tempo.Tempo_npm_enpm R npm enpm note_type).ramped = true)) := by
  have hr : (Tempo.Tempo_npm_enpm R npm enpm note_type).ramped = true ↔ npm ≠ enpm := by
    by_cases h : npm = enpm <;> simp [Tempo.Tempo_npm_enpm, Tempo.ramped, h]
  have heq : npm = enpm →
      (Tempo.Tempo_npm_enpm R npm enpm note_type).superclocks_per_note_type
        = (Tempo.Tempo_npm_enpm R npm enpm note_type).end_superclocks_per_note_type := by
    intro h
    rw [h]
    rfl
  refine ⟨⟨rfl, rfl, rfl⟩, hr, heq, ?_⟩
  intro hne
  rw [hr]
  intro h
  exact hne (heq h)

/-- The amended C8 at `Tempo (120, 4)` and `Tempo (120, 60, 4)`, with 508032000
superclock ticks per second: the first is not ramped, the second is. -/
theorem constructors_ramped_witness :
    (Tempo.Tempo_npm 508032000 120 4).ramped = false ∧
    (Tempo.Tempo_npm_enpm 508032000 120 60 4).ramped = true :=
  have h := constructors_ramped 508032000 120 60 4 (by norm_num) (by norm_num)
  ⟨h.1.1, h.2.1.mpr (by norm_num)⟩

/-- C9, as stated, fails.  With 508032000 superclock ticks per second the
constant tempo `Tempo (120, 4)` has equal start and end values; after
`set_note_types_per_minute (60)` its start value is 508032000, its end value
254016000, and `ramped ()` is still false. -/
theorem set_note_types_per_minute_breaks_invariant :
    ((Tempo.Tempo_npm 508032000 120 4).ramped = true ↔
      (Tempo.Tempo_npm 508032000 120 4).superclocks_per_note_type
        ≠ (Tempo.Tempo_npm 508032000 120 4).end_superclocks_per_note_type) ∧
    (Tempo.set_note_types_per_minute 508032000
      (Tempo.Tempo_npm 508032000 120 4) 60).superclocks_per_note_type = 508032000 ∧
    (Tempo.set_note_types_per_minute 508032000
      (Tempo.Tempo_npm 508032000 120 4) 60).end_superclocks_per_note_type = 254016000 ∧
    (Tempo.set_note_types_per_minute 508032000
      (Tempo.Tempo_npm 508032000 120 4) 60).ramped = false := by
  have hf1 : ⌊((508032000 : Int) : ℚ) / 120 * 60⌋ = 254016000 := by
    rw [Int.floor_eq_iff]; constructor <;> norm_num
  refine ⟨by simp [Tempo.Tempo_npm, Tempo.ramped, Tempo.superclocks_per_note_type,
    Tempo.end_superclocks_per_note_type], ?_, ?_, rfl⟩
  · simp only [Tempo.set_note_types_per_minute, Tempo.superclocks_per_note_type]
    exact Tempo.double_npm_to_sc_sixty 508032000
  · simp only [Tempo.set_note_types_per_minute, Tempo.Tempo_npm,
      Tempo.end_superclocks_per_note_type, Tempo.double_npm_to_sc, llrint, hf1]
    norm_num

/-- C9, amended: for every `npm > 0`, `set_note_types_per_minute (npm)`
replaces the start value by the one the constructor `Tempo (npm, note_type)`
computes for `npm`, and leaves the end value, the type and the other members
alone.  So for a tempo `t` with `ramped ()` true exactly when start and end
differ, the same holds afterwards exactly when the new start value differs
from the end value in the cases in which the old one did. -/
theorem set_note_types_per_minute_spec (R : Int) (t : Tempo) (npm : ℚ)
    (hinv : t.ramped = true ↔
      t.superclocks_per_note_type ≠ t.end_superclocks_per_note_type)
    (_hnpm : 0 < npm) :
    (Tempo.set_note_types_per_minute R t npm).superclocks_per_note_type
      = (Tempo.Tempo_npm R npm t.note_type).superclocks_per_note_type ∧
    (Tempo.set_note_types_per_minute R t npm).end_superclocks_per_note_type
      = t.end_superclocks_per_note_type ∧
    (Tempo.set_note_types_per_minute R t npm).type = t.type ∧
    (Tempo.set_note_types_per_minute R t npm).ramped = t.ramped ∧
    (Tempo.set_note_types_per_minute R t npm).note_type = t.note_type ∧
    (Tempo.set_note_types_per_minute R t npm).active = t.active ∧
    (Tempo.set_note_types_per_minute R t npm).locked_to_meter = t.locked_to_meter ∧
    (Tempo.set_note_types_per_minute R t npm).clamped = t.clamped ∧
    (((Tempo.set_note_types_per_minute R t npm).ramped = true ↔
        (Tempo.set_note_types_per_minute R t npm).superclocks_per_note_type
          ≠ (Tempo.set_note_types_per_minute R t npm).end_superclocks_per_note_type) ↔
      ((Tempo.set_note_types_per_minute R t npm).superclocks_per_note_type
          ≠ t.end_superclocks_per_note_type ↔
        t.superclocks_per_note_type ≠ t.end_superclocks_per_note_type)) := by
  refine ⟨rfl, rfl, rfl, rfl, rfl, rfl, rfl, rfl, ?_⟩
  have h1 : (Tempo.set_note_types_per_minute R t npm).ramped = t.ramped := rfl
  have h3 : (Tempo.set_note_types_per_minute R t npm).end_superclocks_per_note_type
      = t.end_superclocks_per_note_type := rfl
  rw [h1, h3, hinv]
  tauto

/-- The amended C9 at `Tempo (120, 4)` and the rate 60, with 508032000
superclock ticks per second: the end value is untouched. -/
theorem set_note_types_per_minute_spec_witness :
    (Tempo.set_note_types_per_minute 508032000
        (Tempo.Tempo_npm 508032000 120 4) 60).end_superclocks_per_note_type
      = (Tempo.Tempo_npm 508032000 120 4).end_superclocks_per_note_type ∧
    (Tempo.set_note_types_per_minute 508032000
        (Tempo.Tempo_npm 508032000 120 4) 60).ramped
      = (Tempo.Tempo_npm 508032000 120 4).ramped :=
  have h := set_note_types_per_minute_spec 508032000 (Tempo.Tempo_npm 508032000 120 4) 60
    (by simp [Tempo.Tempo_npm, Tempo.ramped, Tempo.superclocks_per_note_type,
      Tempo.end_superclocks_per_note_type]) (by norm_num)
  ⟨h.2.1, h.2.2.2.1⟩

/-- A value in the range of `int64_t` is not changed by the conversion. -/
theorem int64_t_of_eq (n : Int) (hlo : -2 ^ 63 ≤ n) (hhi : n < 2 ^ 63) : int64_t_of n = n := by
  unfold int64_t_of
  omega

/-! ## Claims on `Meter`, `Tempo` and `TempoMetric` -/

/-- C11, as stated, fails: the constructor checks nothing, and `Meter (0, 3)`
has zero divisions per bar and the note value 3. -/
theorem meter_unchecked :
    (Meter.Meter 0 3).divisions_per_bar = 0 ∧
    ¬ (1 ≤ (Meter.Meter 0 3).divisions_per_bar) ∧
    (Meter.Meter 0 3).note_value = 3 ∧
    (Meter.Meter 0 3).note_value ∉ [1, 2, 4, 8, 16] := by
  decide

/-- C11, amended: `Meter (dpb, nv)` stores its arguments as they are, so
`divisions_per_bar ()` is `dpb` and `note_value ()` is `nv`; the meter has
`divisions_per_bar () >= 1` and `note_value ()` among 1, 2, 4, 8, 16 exactly
when the arguments are such. -/
theorem meter_constructor (dpb nv : Int) :
    (Meter.Meter dpb nv).divisions_per_bar = dpb ∧
    (Meter.Meter dpb nv).note_value = nv ∧
    ((1 ≤ (Meter.Meter dpb nv).divisions_per_bar ∧
        (Meter.Meter dpb nv).note_value ∈ [1, 2, 4, 8, 16]) ↔
      (1 ≤ dpb ∧ nv ∈ [1, 2, 4, 8, 16])) :=
  ⟨rfl, rfl, Iff.rfl⟩

/-- C12: for a tempo with superclocks-per-note-type `sc` and note type `s` and
a target note type `n != 0`, when neither the product `sc * s` nor the quotient
leaves the 64 bit range, `superclocks_per_note_type (n)` is the product
divided by `n`, truncated toward zero; and `superclocks_per_quarter_note ()`
is `superclocks_per_note_type (4)`. -/
theorem superclocks_per_note_type_int_eq (t : Tempo) (n : Int) (_hn : n ≠ 0)
    (hlo : -2 ^ 63 ≤ t.superclocks_per_note_type * t.note_type)
    (hhi : t.superclocks_per_note_type * t.note_type < 2 ^ 63)
    (hqlo : -2 ^ 63 ≤ Int.tdiv (t.superclocks_per_note_type * t.note_type) n)
    (hqhi : Int.tdiv (t.superclocks_per_note_type * t.note_type) n < 2 ^ 63) :
    t.superclocks_per_note_type_int n
      = Int.tdiv (t.superclocks_per_note_type * t.note_type) n ∧
    t.superclocks_per_quarter_note = t.superclocks_per_note_type_int 4 := by
  refine ⟨?_, rfl⟩
  unfold Tempo.superclocks_per_note_type_int
  unfold Tempo.superclocks_per_note_type Tempo.note_type at hlo hhi hqlo hqhi ⊢
  rw [int64_t_of_eq _ hlo hhi, int64_t_of_eq _ hqlo hqhi]

/-- C12 at `sample_tempo` (254016000 superclocks per quarter note) and the
target note type 8, and with the negative product of `-7` and `1` divided by
`2`, which truncates to `-3`. -/
theorem superclocks_per_note_type_int_eq_witness :
    (sample_tempo.superclocks_per_note_type_int 8 = 127008000 ∧
      sample_tempo.superclocks_per_quarter_note
        = sample_tempo.superclocks_per_note_type_int 4) ∧
    (({ sample_tempo with _superclocks_per_note_type := -7, _note_type := 1 } : Tempo
      ).superclocks_per_note_type_int 2 = -3) :=
  ⟨superclocks_per_note_type_int_eq sample_tempo 8 (by decide) (by decide) (by decide)
      (by decide) (by decide),
    (superclocks_per_note_type_int_eq
      { sample_tempo with _superclocks_per_note_type := -7, _note_type := 1 } 2 (by decide)
      (by decide) (by decide) (by decide) (by decide)).1⟩

/-- C16: for a flags word within `ExplicitTempo|ExplicitMeter|ExplicitPosition`,
exactly one of `is_implicit ()` and `is_explicit ()` holds, `is_implicit ()`
holds exactly for the empty word, and a point whose only flag is
`ExplicitPosition` is explicit, with `is_explicit_position ()` true and
`is_explicit_tempo ()` and `is_explicit_meter ()` false. -/
theorem flag_states (p : TempoMapPoint)
    (h : p.flags &&& (ExplicitTempo ||| ExplicitMeter ||| ExplicitPosition) = p.flags) :
    ((p.is_implicit = true ∧ p.is_explicit = false) ∨
      (p.is_implicit = false ∧ p.is_explicit = true)) ∧
    (p.is_implicit = true ↔ p.flags = 0) ∧
    (p.flags = ExplicitPosition →
      p.is_explicit = true ∧ p.is_implicit = false ∧ p.is_explicit_position = true ∧
      p.is_explicit_tempo = false ∧ p.is_explicit_meter = false) := by
  cases p with
  | mk fl s sc q b d flt mp =>
    simp only [TempoMapPoint.flags] at h
    have hlt : fl < 8 := by
      have hle : fl &&& (ExplicitTempo ||| ExplicitMeter ||| ExplicitPosition) ≤ 7 :=
        Nat.and_le_right
      omega
    simp only [TempoMapPoint.is_implicit, TempoMapPoint.is_explicit,
      TempoMapPoint.is_explicit_position, TempoMapPoint.is_explicit_tempo,
      TempoMapPoint.is_explicit_meter, TempoMapPoint.flags]
    interval_cases fl <;> decide

/-- C16 at a point whose only flag is `ExplicitPosition`. -/
theorem flag_states_witness :
    (TempoMapPoint.TempoMapPoint_explicit 0 ExplicitPosition sample_tempo sample_meter 0
        ⟨0, 0⟩ ⟨1, 1, 0⟩ false).is_explicit = true ∧
    (TempoMapPoint.TempoMapPoint_explicit 0 ExplicitPosition sample_tempo sample_meter 0
        ⟨0, 0⟩ ⟨1, 1, 0⟩ false).is_explicit_position = true ∧
    (TempoMapPoint.TempoMapPoint_explicit 0 ExplicitPosition sample_tempo sample_meter 0
        ⟨0, 0⟩ ⟨1, 1, 0⟩ false).is_explicit_tempo = false :=
  have h := (flag_states (TempoMapPoint.TempoMapPoint_explicit 0 ExplicitPosition sample_tempo
    sample_meter 0 ⟨0, 0⟩ ⟨1, 1, 0⟩ false) (by decide)).2.2 rfl
  ⟨h.1, h.2.2.1, h.2.2.2.1⟩

/-- C17: for every tempo `t`, constant ones included, every meter `m` and either
value of `ramp`, the metric `TempoMetric (t, m, ramp)` has `c_per_quarter ()`
and `c_per_superclock ()` equal to 0 and has `t` and `m` as its tempo and meter
parts. -/
theorem tempo_metric_constructor (t : Tempo) (m : Meter) (ramp : Bool) :
    (TempoMetric.TempoMetric t m ramp).c_per_quarter = 0 ∧
    (TempoMetric.TempoMetric t m ramp).c_per_superclock = 0 ∧
    (TempoMetric.TempoMetric t m ramp).toTempo = t ∧
    (TempoMetric.TempoMetric t m ramp).toMeter = m :=
  ⟨rfl, rfl, rfl, rfl⟩

/-! ## The search of `iterator_at` -/

namespace TempoMap

theorem upper_bound_le (after : TempoMapPoint → Bool) (l : List TempoMapPoint) :
    upper_bound after l ≤ l.length := by
  induction l with
  | nil => simp [upper_bound]
  | cons p ps ih =>
    simp only [upper_bound, List.length_cons]
    split <;> omega

/-- No point before the position that `upper_bound` returns lies after the
position looked for. -/
theorem upper_bound_prefix (after : TempoMapPoint → Bool) (l : List TempoMapPoint) (j : Nat)
    (p : TempoMapPoint) (hj : j < upper_bound after l) (hp : l[j]? = some p) :
    after p = false := by
  induction l generalizing j with
  | nil => simp [upper_bound] at hj
  | cons q qs ih =>
    cases hq : after q with
    | true => simp [upper_bound, hq] at hj
    | false =>
      have hu : upper_bound after (q :: qs) = upper_bound after qs + 1 := by
        simp [upper_bound, hq]
      rw [hu] at hj
      cases j with
      | zero =>
        simp only [List.getElem?_cons_zero, Option.some.injEq] at hp
        subst hp
        exact hq
      | succ k =>
        simp only [List.getElem?_cons_succ] at hp
        exact ih k (by omega) hp

/-- In a list in which every point that follows a point after the position is
itself after the position, every point from the position `upper_bound` returns
on lies after the position looked for. -/
theorem upper_bound_suffix (after : TempoMapPoint → Bool) (l : List TempoMapPoint)
    (hs : l.Pairwise (fun a b => after a = true → after b = true)) (j : Nat)
    (p : TempoMapPoint) (hj : upper_bound after l ≤ j) (hp : l[j]? = some p) :
    after p = true := by
  induction l generalizing j with
  | nil => simp at hp
  | cons q qs ih =>
    rw [List.pairwise_cons] at hs
    cases hq : after q with
    | true =>
      cases j with
      | zero =>
        simp only [List.getElem?_cons_zero, Option.some.injEq] at hp
        subst hp
        exact hq
      | succ k =>
        simp only [List.getElem?_cons_succ] at hp
        exact hs.1 p (List.getElem?_mem hp) hq
    | false =>
      have hu : upper_bound after (q :: qs) = upper_bound after qs + 1 := by
        simp [upper_bound, hq]
      rw [hu] at hj
      cases j with
      | zero => omega
      | succ k =>
        simp only [List.getElem?_cons_succ] at hp
        exact ih hs.2 k (by omega) hp

/-- A list sorted by superclock position has the property `upper_bound_suffix`
asks for. -/
theorem sorted_after (sc : Int) (l : List TempoMapPoint)
    (hs : l.Pairwise (fun a b => a.sclock ≤ b.sclock)) :
    l.Pairwise (fun a b => (fun x : TempoMapPoint => decide (sc < x.sclock)) a = true →
      (fun x : TempoMapPoint => decide (sc < x.sclock)) b = true) := by
  refine hs.imp ?_
  intro a b hab ha
  simp only [decide_eq_true_eq] at ha ⊢
  omega

theorem iterator_at_of_nil (m : Temporal.TempoMap) (sc : Int) (h : m._points = []) :
    m.iterator_at sc = Except.error EmptyTempoMapException.thrown := by
  simp [iterator_at, h]

theorem iterator_at_of_ne_nil (m : Temporal.TempoMap) (sc : Int) (h : m._points ≠ []) :
    m.iterator_at sc
      = Except.ok (upper_bound (fun x => decide (sc < x.sclock)) m._points - 1) := by
  unfold iterator_at
  cases hm : m._points with
  | nil => exact absurd hm h
  | cons p ps => rfl

/-- On a map with points the iterator is that of a point of the map. -/
theorem iterator_at_lt_length (m : Temporal.TempoMap) (sc : Int) (h : m._points ≠ []) :
    upper_bound (fun x => decide (sc < x.sclock)) m._points - 1 < m._points.length := by
  have hle := upper_bound_le (fun x => decide (sc < x.sclock)) m._points
  have hpos : 0 < m._points.length := List.length_pos.mpr h
  omega

/-- What `const_point_at (samplepos_t)` returns on a map with points. -/
theorem const_point_at_of_ne_nil (R : Int) (m : Temporal.TempoMap) (s : Int)
    (h : m._points ≠ []) :
    const_point_at R m s = Except.ok (m._points[upper_bound
      (fun x => decide (samples_to_superclock R s m._sample_rate < x.sclock)) m._points - 1]?) := by
  unfold const_point_at const_iterator_at
  rw [iterator_at_of_ne_nil m _ h]

/-- The functions `tempo_at_locked (superclock_t)` and `meter_at_locked
(superclock_t)` go through `const_point_at (samplepos_t)`: the point they read
is the one `iterator_at` selects for `samples_to_superclock (sc, _sample_rate)`. -/
theorem tempo_at_locked_eq (R : Int) (m : Temporal.TempoMap) (sc : Int) (i : Nat)
    (p : TempoMapPoint)
    (hi : m.iterator_at (samples_to_superclock R sc m._sample_rate) = Except.ok i)
    (hp : m._points[i]? = some p) :
    tempo_at_locked R m sc = Except.ok (p.metric.map TempoMetric.toTempo) ∧
    meter_at_locked R m sc = Except.ok (p.metric.map TempoMetric.toMeter) := by
  unfold tempo_at_locked meter_at_locked const_point_at const_iterator_at
  rw [hi]
  simp only [hp]
  trivial

end TempoMap

/-! ## Claims on `TempoMap` -/

/-- C14 (scenario 1): for a map constructed with `Tempo (120, 4)` and
`Meter (4,4)` at sample rate 48000, `sample_at (Beats (4,0))` is 96000, for
every even number `R` of superclock ticks per second below `2^62` and every
number of ticks per beat.  This is `4 * superclocks_per_quarter_note ()`
superclocks converted by `samples = superclocks * sr / R`, and
`superclocks_per_quarter_note ()` is `R * 60 / 120`. -/
theorem sample_at_scenario_one (R T : Int) (hR : 0 < R) (heven : 2 ∣ R) (hmax : R < 2 ^ 62) :
    TempoMap.sample_at R T
        (TempoMap.TempoMap (Tempo.Tempo_npm R 120 4) (Meter.Meter 4 4) 48000) ⟨4, 0⟩
      = Except.ok (some 96000) ∧
    superclock_to_samples R (4 * (Tempo.Tempo_npm R 120 4).superclocks_per_quarter_note) 48000
      = 96000 ∧
    (Tempo.Tempo_npm R 120 4).superclocks_per_quarter_note = R * 60 / 120 := by
  obtain ⟨k, hk⟩ := heven
  have hkpos : 0 < k := by omega
  have hsc : Tempo.double_npm_to_sc R 120 = k := by
    unfold Tempo.double_npm_to_sc
    have h : ((R : ℚ) / 120) * 60 = (k : ℚ) := by
      rw [hk]
      push_cast
      ring
    rw [h, llrint_intCast]
  have h8 : int8_t_of 4 = 4 := by decide
  have hq : (Tempo.Tempo_npm R 120 4).superclocks_per_quarter_note = k := by
    unfold Tempo.superclocks_per_quarter_note Tempo.superclocks_per_note_type_int
    simp only [Tempo.Tempo_npm, hsc, h8]
    rw [int64_t_of_eq (k * 4) (by omega) (by omega), Int.mul_tdiv_cancel k (by decide)]
    exact int64_t_of_eq k (by omega) (by omega)
  have hconv : superclock_to_samples R (4 * k) 48000 = 96000 := by
    unfold superclock_to_samples
    have h : 4 * k * 48000 = 96000 * R := by rw [hk]; ring
    rw [h, Int.mul_tdiv_cancel 96000 (by omega)]
  refine ⟨?_, ?_, ?_⟩
  · have hr : (Tempo.Tempo_npm R 120 4).ramped = false := rfl
    have hit : (TempoMap.TempoMap (Tempo.Tempo_npm R 120 4) (Meter.Meter 4 4) 48000
        ).iterator_at_beats ⟨4, 0⟩ = Except.ok 0 := by
      simp [TempoMap.iterator_at_beats, TempoMap.TempoMap, TempoMap.upper_bound,
        TempoMapPoint.TempoMapPoint_explicit, TempoMapPoint.quarters, Beats.lt]
    have hmet : (TempoMapPoint.TempoMapPoint_explicit 0 (ExplicitTempo ||| ExplicitMeter)
        (Tempo.Tempo_npm R 120 4) (Meter.Meter 4 4) 0 ⟨0, 0⟩ ⟨1, 1, 0⟩ false).metric
        = some (TempoMetric.TempoMetric (Tempo.Tempo_npm R 120 4) (Meter.Meter 4 4) false) := by
      simp [TempoMapPoint.TempoMapPoint_explicit, TempoMapPoint.metric,
        TempoMapPoint.is_explicit, TempoMapPoint.flags, ExplicitTempo, ExplicitMeter,
        ExplicitPosition]
    have hpts : (TempoMap.TempoMap (Tempo.Tempo_npm R 120 4) (Meter.Meter 4 4) 48000)._points[0]?
        = some (TempoMapPoint.TempoMapPoint_explicit 0 (ExplicitTempo ||| ExplicitMeter)
          (Tempo.Tempo_npm R 120 4) (Meter.Meter 4 4) 0 ⟨0, 0⟩ ⟨1, 1, 0⟩ false) := rfl
    have hsc0 : (TempoMapPoint.TempoMapPoint_explicit 0 (ExplicitTempo ||| ExplicitMeter)
        (Tempo.Tempo_npm R 120 4) (Meter.Meter 4 4) 0 ⟨0, 0⟩ ⟨1, 1, 0⟩ false).sclock = 0 := rfl
    have hq0 : (TempoMapPoint.TempoMapPoint_explicit 0 (ExplicitTempo ||| ExplicitMeter)
        (Tempo.Tempo_npm R 120 4) (Meter.Meter 4 4) 0 ⟨0, 0⟩ ⟨1, 1, 0⟩ false).quarters
        = ⟨0, 0⟩ := rfl
    have hsr : (TempoMap.TempoMap (Tempo.Tempo_npm R 120 4) (Meter.Meter 4 4) 48000)._sample_rate
        = 48000 := rfl
    unfold TempoMap.sample_at
    rw [hit]
    simp only [hpts, hmet, hsc0, hq0, hsr, TempoMetric.TempoMetric, hr, hq]
    simp
    exact hconv
  · rw [hq]
    exact hconv
  · rw [hq]
    omega

/-- C14 with 508032000 superclock ticks per second and 1920 ticks per beat. -/
theorem sample_at_scenario_one_witness :
    TempoMap.sample_at 508032000 1920
        (TempoMap.TempoMap (Tempo.Tempo_npm 508032000 120 4) (Meter.Meter 4 4) 48000) ⟨4, 0⟩
      = Except.ok (some 96000) :=
  (sample_at_scenario_one 508032000 1920 (by decide) (by decide) (by decide)).1

/-- C15, at `sample_map` (48000 samples per second, 508032000 superclock ticks
per second) and the superclock position 508032000, one second: `iterator_at`
selects the first point, whose tempo is `sample_tempo`, but
`tempo_at_locked` and `meter_at_locked` pass the superclock value to
`const_point_at (samplepos_t)`, which converts it to the superclock position
5377010688000 and selects the second point, whose tempo is `sample_slow_tempo`. -/
theorem tempo_at_locked_sample_map :
    sample_map.iterator_at 508032000 = Except.ok 0 ∧
    sample_map._points[0]? = some sample_anchor ∧
    sample_anchor.metric.map TempoMetric.toTempo = some sample_tempo ∧
    samples_to_superclock 508032000 508032000 sample_map._sample_rate = 5377010688000 ∧
    sample_map.iterator_at 5377010688000 = Except.ok 1 ∧
    TempoMap.tempo_at_locked 508032000 sample_map 508032000
      = Except.ok (some sample_slow_tempo) ∧
    TempoMap.meter_at_locked 508032000 sample_map 508032000
      = Except.ok (some sample_meter) ∧
    TempoMap.tempo_at_locked 508032000 sample_map 508032000
      ≠ Except.ok (sample_anchor.metric.map TempoMetric.toTempo) := by
  have h1 : samples_to_superclock 508032000 508032000 sample_map._sample_rate
      = 5377010688000 := by decide
  have h2 : sample_map.iterator_at 5377010688000 = Except.ok 1 := by
    simp [TempoMap.iterator_at, sample_map, TempoMap.upper_bound, sample_anchor,
      TempoMapPoint.TempoMapPoint_explicit, TempoMapPoint.sclock]
  have h0 : sample_map.iterator_at 508032000 = Except.ok 0 := by
    simp [TempoMap.iterator_at, sample_map, TempoMap.upper_bound, sample_anchor,
      TempoMapPoint.TempoMapPoint_explicit, TempoMapPoint.sclock]
  have h3 : sample_anchor.metric.map TempoMetric.toTempo = some sample_tempo := by
    simp [sample_anchor, TempoMapPoint.TempoMapPoint_explicit, TempoMapPoint.metric,
      TempoMapPoint.is_explicit, TempoMapPoint.flags, ExplicitTempo, ExplicitMeter,
      ExplicitPosition, TempoMetric.TempoMetric]
  have h4 := TempoMap.tempo_at_locked_eq 508032000 sample_map 508032000 1
    (TempoMapPoint.TempoMapPoint_explicit 0 ExplicitTempo sample_slow_tempo sample_meter
      1016064000 ⟨4, 0⟩ ⟨2, 1, 0⟩ false) (by rw [h1]; exact h2) rfl
  have h5 : (TempoMapPoint.TempoMapPoint_explicit 0 ExplicitTempo sample_slow_tempo
      sample_meter 1016064000 ⟨4, 0⟩ ⟨2, 1, 0⟩ false).metric
      = some (TempoMetric.TempoMetric sample_slow_tempo sample_meter false) := by
    simp [TempoMapPoint.TempoMapPoint_explicit, TempoMapPoint.metric,
      TempoMapPoint.is_explicit, TempoMapPoint.flags, ExplicitTempo, ExplicitMeter,
      ExplicitPosition]
  rw [h5] at h4
  refine ⟨h0, rfl, h3, h1, h2, h4.1, h4.2, ?_⟩
  rw [h4.1, h3]
  simp [sample_slow_tempo, sample_tempo, TempoMetric.TempoMetric]

/-- C18: `iterator_at` never returns the end position.  On an empty map it
raises `EmptyTempoMapException`.  On a map with points, sorted by superclock
position, it returns the iterator of a point of the map: the first point for
a time before the first point, the last point for a time at or after the last
point, and otherwise the last of the points at or before the time, every later
point lying after the time.  So `const_point_at` on a map with points yields
a point of the map. -/
theorem iterator_at_contract (R : Int) (m : TempoMap) (sc : Int)
    (hs : m._points.Pairwise (fun a b => a.sclock ≤ b.sclock)) :
    (m._points = [] → m.iterator_at sc = Except.error EmptyTempoMapException.thrown) ∧
    (m._points ≠ [] →
      ∃ i p, m.iterator_at sc = Except.ok i ∧ i < m._points.length ∧
        m._points[i]? = some p ∧ p ∈ m._points ∧
        (∀ p0, m._points.head? = some p0 → sc < p0.sclock → i = 0) ∧
        (∀ pl, m._points.getLast? = some pl → pl.sclock ≤ sc → i + 1 = m._points.length) ∧
        (∀ p0, m._points.head? = some p0 → p0.sclock ≤ sc → p.sclock ≤ sc) ∧
        (∀ j pj, i < j → m._points[j]? = some pj → sc < pj.sclock)) ∧
    (m._points ≠ [] →
      ∀ s, ∃ p, TempoMap.const_point_at R m s = Except.ok (some p) ∧ p ∈ m._points) := by
  refine ⟨TempoMap.iterator_at_of_nil m sc, ?_, ?_⟩
  · intro hne
    have hlt := TempoMap.iterator_at_lt_length m sc hne
    have hle := TempoMap.upper_bound_le (fun x => decide (sc < x.sclock)) m._points
    have hmono := TempoMap.sorted_after sc m._points hs
    have hget := List.getElem?_eq_getElem hlt
    refine ⟨_, _, TempoMap.iterator_at_of_ne_nil m sc hne, hlt, hget,
      List.getElem?_mem hget, ?_, ?_, ?_, ?_⟩
    · intro p0 hp0 hsc
      rw [List.head?_eq_getElem?] at hp0
      by_contra hi
      have h := TempoMap.upper_bound_prefix (fun x => decide (sc < x.sclock)) m._points 0 p0
        (by omega) hp0
      simp only [decide_eq_false_iff_not] at h
      exact h hsc
    · intro pl hpl hsc
      rw [List.getLast?_eq_getElem?] at hpl
      by_contra hi
      have h := TempoMap.upper_bound_suffix (fun x => decide (sc < x.sclock)) m._points hmono
        (m._points.length - 1) pl (by omega) hpl
      simp only [decide_eq_true_eq] at h
      omega
    · intro p0 hp0 hsc
      rw [List.head?_eq_getElem?] at hp0
      have hub : 0 < TempoMap.upper_bound (fun x => decide (sc < x.sclock)) m._points := by
        by_contra h0
        have h := TempoMap.upper_bound_suffix (fun x => decide (sc < x.sclock)) m._points
          hmono 0 p0 (by omega) hp0
        simp only [decide_eq_true_eq] at h
        omega
      have h := TempoMap.upper_bound_prefix (fun x => decide (sc < x.sclock)) m._points _ _
        (by omega) hget
      simp only [decide_eq_false_iff_not] at h
      omega
    · intro j pj hj hpj
      have h := TempoMap.upper_bound_suffix (fun x => decide (sc < x.sclock)) m._points hmono
        j pj (by omega) hpj
      simpa using h
  · intro hne s
    have hlt := TempoMap.iterator_at_lt_length m
      (samples_to_superclock R s m._sample_rate) hne
    have hget := List.getElem?_eq_getElem hlt
    refine ⟨_, ?_, List.getElem?_mem hget⟩
    rw [TempoMap.const_point_at_of_ne_nil R m s hne, hget]

/-- C18 at `sample_map`, which is sorted, and the superclock position
508032000: the iterator is that of the first point. -/
theorem iterator_at_contract_witness :
    ∃ i p, sample_map.iterator_at 508032000 = Except.ok i ∧ i < sample_map._points.length ∧
      sample_map._points[i]? = some p ∧ p ∈ sample_map._points ∧
      (∀ p0, sample_map._points.head? = some p0 → 508032000 < p0.sclock → i = 0) ∧
      (∀ pl, sample_map._points.getLast? = some pl → pl.sclock ≤ 508032000 →
        i + 1 = sample_map._points.length) ∧
      (∀ p0, sample_map._points.head? = some p0 → p0.sclock ≤ 508032000 →
        p.sclock ≤ 508032000) ∧
      (∀ j pj, i < j → sample_map._points[j]? = some pj → 508032000 < pj.sclock) :=
  (iterator_at_contract 508032000 sample_map 508032000 (by
    simp [sample_map, sample_anchor, TempoMapPoint.TempoMapPoint_explicit,
      TempoMapPoint.sclock])).2.1 (by simp [sample_map])

/-! ## Claims on coercion, the point shortcuts and meter equality -/

/-- A value in the range of `int8_t` is not changed by the conversion. -/
theorem int8_t_of_eq (n : Int) (hlo : -128 ≤ n) (hhi : n ≤ 127) : int8_t_of n = n := by
  unfold int8_t_of
  omega

/-- C21: coercing a tempo to its own note type is the identity.  For a tempo
whose note type is not 0, whose superclocks-per-note-type `sc` is a 64 bit value
and whose product `sc * note_type` does not leave the 64 bit range,
`superclocks_per_note_type (note_type ())` is `superclocks_per_note_type ()`;
when the note type is 4, `superclocks_per_quarter_note ()` is
`superclocks_per_note_type ()`. -/
theorem superclocks_per_note_type_own (t : Tempo) (hnt : t.note_type ≠ 0)
    (hsclo : -2 ^ 63 ≤ t.superclocks_per_note_type)
    (hschi : t.superclocks_per_note_type < 2 ^ 63)
    (hlo : -2 ^ 63 ≤ t.superclocks_per_note_type * t.note_type)
    (hhi : t.superclocks_per_note_type * t.note_type < 2 ^ 63) :
    t.superclocks_per_note_type_int t.note_type = t.superclocks_per_note_type ∧
    (t.note_type = 4 → t.superclocks_per_quarter_note = t.superclocks_per_note_type) := by
  have key : t.superclocks_per_note_type_int t.note_type = t.superclocks_per_note_type := by
    unfold Tempo.superclocks_per_note_type_int
    simp only [Tempo.superclocks_per_note_type, Tempo.note_type] at *
    rw [int64_t_of_eq _ hlo hhi, Int.mul_tdiv_cancel _ hnt, int64_t_of_eq _ hsclo hschi]
  refine ⟨key, ?_⟩
  intro h4
  unfold Tempo.superclocks_per_quarter_note
  rw [← h4]
  exact key

/-- C21 at `sample_tempo`, whose note type is 4. -/
theorem superclocks_per_note_type_own_witness :
    sample_tempo.superclocks_per_note_type_int sample_tempo.note_type
      = sample_tempo.superclocks_per_note_type ∧
    sample_tempo.superclocks_per_quarter_note = 254016000 :=
  have h := superclocks_per_note_type_own sample_tempo (by decide) (by decide) (by decide)
    (by decide) (by decide)
  ⟨h.1, h.2 rfl⟩

namespace TempoMapPoint

/-- The point level `superclocks_per_note_type` follows the same path through
the union as `metric ()`. -/
theorem superclocks_per_note_type_eq_map :
    ∀ (p : TempoMapPoint) (n : Int), int8_t_of n = n →
      p.superclocks_per_note_type n
        = p.metric.map (fun tm => tm.toTempo.superclocks_per_note_type_int n)
  | mk fl (MetricSlot._explicit m) sc q b d flt mp, n, h => by
    simp only [superclocks_per_note_type, metric, h]
    split <;> rfl
  | mk fl (MetricSlot._reference r) sc q b d flt mp, n, h => by
    have ih := superclocks_per_note_type_eq_map r n h
    simp only [superclocks_per_note_type, metric, h]
    split
    · rfl
    · exact ih

/-- The function `meter ()` returns what `tempo ()` returns. -/
theorem meter_eq_tempo (p : TempoMapPoint) : p.meter = p.tempo := rfl

end TempoMapPoint

/-- C22: for every point `p` whose metric is determinate (an explicit point, or
an implicit one whose references end at an explicit point) and every note type
`n != 0` of the parameter's type `int8_t`, `p.superclocks_per_note_type (n)` is
`p.metric ().superclocks_per_note_type (n)`. -/
theorem point_superclocks_per_note_type (p : TempoMapPoint) (tm : TempoMetric) (n : Int)
    (hm : p.metric = some tm) (_hn : n ≠ 0) (hlo : -128 ≤ n) (hhi : n ≤ 127) :
    p.superclocks_per_note_type n = some (tm.toTempo.superclocks_per_note_type_int n) := by
  rw [TempoMapPoint.superclocks_per_note_type_eq_map p n (int8_t_of_eq n hlo hhi), hm]
  rfl

/-- C22 at `sample_anchor`, which is explicit, and at `sample_implicit`, which
refers to it, for the note type 8. -/
theorem point_superclocks_per_note_type_witness :
    sample_anchor.superclocks_per_note_type 8
      = some (sample_metric.toTempo.superclocks_per_note_type_int 8) ∧
    sample_implicit.superclocks_per_note_type 8
      = some (sample_metric.toTempo.superclocks_per_note_type_int 8) ∧
    sample_metric.toTempo.superclocks_per_note_type_int 8 = 127008000 :=
  ⟨point_superclocks_per_note_type sample_anchor sample_metric 8
      (by simp [sample_anchor, TempoMapPoint.TempoMapPoint_explicit, TempoMapPoint.metric,
        TempoMapPoint.is_explicit, TempoMapPoint.flags, ExplicitTempo, ExplicitMeter,
        ExplicitPosition, sample_metric])
      (by decide) (by decide) (by decide),
    point_superclocks_per_note_type sample_implicit sample_metric 8
      (by simp [sample_implicit, sample_anchor, TempoMapPoint.TempoMapPoint_reference,
        TempoMapPoint.TempoMapPoint_explicit, TempoMapPoint.metric,
        TempoMapPoint.is_explicit, TempoMapPoint.flags, ExplicitTempo, ExplicitMeter,
        ExplicitPosition, sample_metric])
      (by decide) (by decide) (by decide),
    by decide⟩

/-- C25, at `sample_meter_point`, an explicit point whose metric has the tempo
`sample_tempo` (note type 4) and the meter 3/8: `meter ()` returns the tempo of
the metric, as `tempo ()` does, and not its meter; the value has the note type
4, where the meter has 3 divisions per bar and the note value 8. -/
theorem meter_sample_meter_point :
    sample_meter_point.metric.map TempoMetric.toMeter = some sample_meter_three_eight ∧
    sample_meter_three_eight.divisions_per_bar = 3 ∧
    sample_meter_three_eight.note_value = 8 ∧
    sample_meter_point.meter = some sample_tempo ∧
    sample_meter_point.meter = sample_meter_point.tempo ∧
    sample_meter_point.meter.map Tempo.note_type = some 4 := by
  have hm : sample_meter_point.metric
      = some (TempoMetric.TempoMetric sample_tempo sample_meter_three_eight false) := by
    simp [sample_meter_point, TempoMapPoint.TempoMapPoint_explicit, TempoMapPoint.metric,
      TempoMapPoint.is_explicit, TempoMapPoint.flags, ExplicitTempo, ExplicitMeter,
      ExplicitPosition]
  have ht : sample_meter_point.meter = some sample_tempo := by
    unfold TempoMapPoint.meter
    rw [hm]
    rfl
  refine ⟨?_, rfl, rfl, ht, rfl, ?_⟩
  · rw [hm]
    rfl
  · rw [ht]
    rfl

/-- C26: meter equality is decided by the pair of members.  `a == b` holds
exactly when the divisions per bar and the note values are equal, `a != b` is
its negation, `==` is reflexive, symmetric and transitive, and after the
assignment `a = b` (of another object, or of `a` to itself) `a == b` holds. -/
theorem meter_equality (a b c : Meter) :
    (a.operator_eq b = true ↔
      a.divisions_per_bar = b.divisions_per_bar ∧ a.note_value = b.note_value) ∧
    a.operator_ne b = !a.operator_eq b ∧
    a.operator_eq a = true ∧
    a.operator_eq b = b.operator_eq a ∧
    (a.operator_eq b = true → b.operator_eq c = true → a.operator_eq c = true) ∧
    (a.operator_assign b false).operator_eq b = true ∧
    (a.operator_assign a true).operator_eq a = true ∧
    (a.operator_assign b false).divisions_per_bar = b.divisions_per_bar ∧
    (a.operator_assign b false).note_value = b.note_value := by
  have hiff : ∀ x y : Meter, x.operator_eq y = true ↔
      x._divisions_per_bar = y._divisions_per_bar ∧ x._note_value = y._note_value := by
    intro x y
    simp [Meter.operator_eq, Meter.divisions_per_bar, Meter.note_value]
  refine ⟨hiff a b, ?_, ?_, ?_, ?_, ?_, ?_, rfl, rfl⟩
  · simp only [Meter.operator_ne, Meter.operator_eq, bne, Bool.not_and]
  · exact (hiff a a).mpr ⟨rfl, rfl⟩
  · rw [Bool.eq_iff_iff, hiff a b, hiff b a]
    exact ⟨fun h => ⟨h.1.symm, h.2.symm⟩, fun h => ⟨h.1.symm, h.2.symm⟩⟩
  · intro hab hbc
    rw [hiff] at hab hbc ⊢
    exact ⟨hab.1.trans hbc.1, hab.2.trans hbc.2⟩
  · exact (hiff _ b).mpr ⟨rfl, rfl⟩
  · exact (hiff _ a).mpr ⟨rfl, rfl⟩

end Temporal

/-! ## Claims on `MusicalMode` -/

/-- C19: `MusicalMode::fill (m, NeapolitanMinor)` sets `m.steps` to
`[0.5, 1.5, 2.5, 2.5, 4.0, 5.5]`, whatever it held; the third and fourth steps
are both 2.5, and the list is not strictly increasing. -/
theorem fill_NeapolitanMinor (m : MusicalMode) :
    (MusicalMode.fill m MusicalMode.Type.NeapolitanMinor).steps
      = [0.5, 1.5, 2.5, 2.5, 4.0, 5.5] ∧
    (MusicalMode.fill m MusicalMode.Type.NeapolitanMinor).steps[2]? = some (2.5 : ℚ) ∧
    (MusicalMode.fill m MusicalMode.Type.NeapolitanMinor).steps[3]? = some (2.5 : ℚ) ∧
    ¬ (MusicalMode.fill m MusicalMode.Type.NeapolitanMinor).steps.Pairwise
      (fun a b => a < b) := by
  have hsteps : (MusicalMode.fill m MusicalMode.Type.NeapolitanMinor).steps
      = [0.5, 1.5, 2.5, 2.5, 4.0, 5.5] := by
    simp [MusicalMode.fill]
  rw [hsteps]
  refine ⟨rfl, rfl, rfl, ?_⟩
  intro h
  simp only [List.pairwise_cons] at h
  exact absurd (h.2.2.1 2.5 (List.mem_cons_self _ _)) (lt_irrefl _)

/-- C20: `MusicalMode::fill (m, Random)` sets `m.steps` to the one element list
`[0.0]`, whatever it held, and `Random` is the only mode type whose step list
contains 0.0. -/
theorem fill_Random (m : MusicalMode) (t : MusicalMode.Type) :
    (MusicalMode.fill m MusicalMode.Type.Random).steps = [0.0] ∧
    ((0.0 : ℚ) ∈ (MusicalMode.fill m t).steps ↔ t = MusicalMode.Type.Random) := by
  refine ⟨by simp [MusicalMode.fill], ?_⟩
  cases t <;> simp [MusicalMode.fill] <;> norm_num

/-- A list of positive, strictly increasing numbers of half tones gives a
non-empty, strictly increasing list of positive multiples of 0.5. -/
theorem steps_of_half_tones (l : List ℚ) (ks : List ℕ)
    (hl : l = ks.map (fun k : ℕ => (k : ℚ) * 0.5))
    (hks : ks ≠ [] ∧ ks.Pairwise (fun a b => a < b) ∧ ∀ k ∈ ks, 0 < k) :
    l ≠ [] ∧ l.Pairwise (fun a b => a < b) ∧
    ∀ s ∈ l, 0 < s ∧ ∃ k : ℕ, 0 < k ∧ s = k * (0.5 : ℚ) := by
  subst hl
  refine ⟨?_, ?_, ?_⟩
  · simpa using hks.1
  · rw [List.pairwise_map]
    refine hks.2.1.imp ?_
    intro a b hab
    have h : (a : ℚ) < b := by exact_mod_cast hab
    linarith
  · intro s hs
    rw [List.mem_map] at hs
    obtain ⟨k, hk, rfl⟩ := hs
    have hpos : 0 < k := hks.2.2 k hk
    have h : (0 : ℚ) < k := by exact_mod_cast hpos
    exact ⟨by linarith, k, hpos, rfl⟩

/-- A list of numbers of half tones from 1 to `n` gives values above 0 and up
to `n` times 0.5. -/
theorem steps_up_to (l : List ℚ) (ks : List ℕ) (n : ℕ)
    (hl : l = ks.map (fun k : ℕ => (k : ℚ) * 0.5))
    (hks : ∀ k ∈ ks, 0 < k ∧ k ≤ n) :
    ∀ s ∈ l, 0 < s ∧ s ≤ (n : ℚ) * 0.5 := by
  subst hl
  intro s hs
  rw [List.mem_map] at hs
  obtain ⟨k, hk, rfl⟩ := hs
  have h1 : (0 : ℚ) < k := by exact_mod_cast (hks k hk).1
  have h2 : (k : ℚ) ≤ n := by exact_mod_cast (hks k hk).2
  constructor <;> linarith

/-- C23: for every mode type other than `Random` and `NeapolitanMinor`, the
step list that `MusicalMode::fill` produces is not empty, is strictly
increasing, and holds only positive multiples of 0.5. -/
theorem fill_steps_increasing (m : MusicalMode) (t : MusicalMode.Type)
    (h1 : t ≠ MusicalMode.Type.Random) (h2 : t ≠ MusicalMode.Type.NeapolitanMinor) :
    (MusicalMode.fill m t).steps ≠ [] ∧
    (MusicalMode.fill m t).steps.Pairwise (fun a b => a < b) ∧
    ∀ s ∈ (MusicalMode.fill m t).steps, 0 < s ∧ ∃ k : ℕ, 0 < k ∧ s = k * (0.5 : ℚ) := by
  cases t
  case Random => exact absurd rfl h1
  case Dorian =>
    exact steps_of_half_tones _ [2, 3, 4, 6, 8, 9] (by simp [MusicalMode.fill]; norm_num) (by decide)
  case Ionian =>
    exact steps_of_half_tones _ [2, 4, 5, 7, 9, 11] (by simp [MusicalMode.fill]; norm_num) (by decide)
  case Phrygian =>
    exact steps_of_half_tones _ [1, 3, 5, 7, 8, 10] (by simp [MusicalMode.fill]; norm_num) (by decide)
  case Lydian =>
    exact steps_of_half_tones _ [2, 4, 6, 7, 9, 11] (by simp [MusicalMode.fill]; norm_num) (by decide)
  case Mixolydian =>
    exact steps_of_half_tones _ [2, 4, 5, 7, 9, 10] (by simp [MusicalMode.fill]; norm_num) (by decide)
  case Aeolian =>
    exact steps_of_half_tones _ [2, 3, 5, 7, 8, 10] (by simp [MusicalMode.fill]; norm_num) (by decide)
  case Locrian =>
    exact steps_of_half_tones _ [1, 3, 4, 6, 8, 10] (by simp [MusicalMode.fill]; norm_num) (by decide)
  case PentatonicMajor =>
    exact steps_of_half_tones _ [2, 4, 5, 7] (by simp [MusicalMode.fill]; norm_num) (by decide)
  case PentatonicMinor =>
    exact steps_of_half_tones _ [3, 5, 7, 10] (by simp [MusicalMode.fill]; norm_num) (by decide)
  case MajorChord =>
    exact steps_of_half_tones _ [4, 7] (by simp [MusicalMode.fill]; norm_num) (by decide)
  case MinorChord =>
    exact steps_of_half_tones _ [3, 7] (by simp [MusicalMode.fill]; norm_num) (by decide)
  case Min7 =>
    exact steps_of_half_tones _ [3, 7, 10] (by simp [MusicalMode.fill]; norm_num) (by decide)
  case Sus4 =>
    exact steps_of_half_tones _ [5, 7] (by simp [MusicalMode.fill]; norm_num) (by decide)
  case Chromatic =>
    exact steps_of_half_tones _ [1, 2, 3, 4, 5, 6, 7, 8, 9, 10, 11] (by simp [MusicalMode.fill]; norm_num) (by decide)
  case BluesScale =>
    exact steps_of_half_tones _ [2, 3, 5, 6, 7, 9, 10, 11] (by simp [MusicalMode.fill]; norm_num) (by decide)
  case NeapolitanMinor => exact absurd rfl h2
  case NeapolitanMajor =>
    exact steps_of_half_tones _ [1, 3, 5, 7, 9, 11] (by simp [MusicalMode.fill]; norm_num) (by decide)
  case Oriental =>
    exact steps_of_half_tones _ [1, 4, 5, 6, 9, 10] (by simp [MusicalMode.fill]; norm_num) (by decide)
  case DoubleHarmonic =>
    exact steps_of_half_tones _ [1, 4, 5, 7, 8, 11] (by simp [MusicalMode.fill]; norm_num) (by decide)
  case Enigmatic =>
    exact steps_of_half_tones _ [1, 4, 6, 8, 10, 11] (by simp [MusicalMode.fill]; norm_num) (by decide)
  case Hirajoshi =>
    exact steps_of_half_tones _ [2, 3, 7, 8] (by simp [MusicalMode.fill]; norm_num) (by decide)
  case HungarianMinor =>
    exact steps_of_half_tones _ [2, 3, 6, 7, 8, 11] (by simp [MusicalMode.fill]; norm_num) (by decide)
  case HungarianMajor =>
    exact steps_of_half_tones _ [2, 4, 6, 7, 8, 10] (by simp [MusicalMode.fill]; norm_num) (by decide)
  case Kumoi =>
    exact steps_of_half_tones _ [1, 5, 7, 8] (by simp [MusicalMode.fill]; norm_num) (by decide)
  case Iwato =>
    exact steps_of_half_tones _ [1, 5, 6, 10] (by simp [MusicalMode.fill]; norm_num) (by decide)
  case Hindu =>
    exact steps_of_half_tones _ [2, 4, 5, 7, 8, 10] (by simp [MusicalMode.fill]; norm_num) (by decide)
  case Spanish8Tone =>
    exact steps_of_half_tones _ [1, 3, 4, 5, 6, 8, 10] (by simp [MusicalMode.fill]; norm_num) (by decide)
  case Pelog =>
    exact steps_of_half_tones _ [1, 3, 7, 10] (by simp [MusicalMode.fill]; norm_num) (by decide)
  case HungarianGypsy =>
    exact steps_of_half_tones _ [2, 3, 6, 7, 8, 10] (by simp [MusicalMode.fill]; norm_num) (by decide)
  case Overtone =>
    exact steps_of_half_tones _ [2, 4, 6, 7, 9, 10] (by simp [MusicalMode.fill]; norm_num) (by decide)
  case LeadingWholeTone =>
    exact steps_of_half_tones _ [2, 4, 6, 8, 10, 11] (by simp [MusicalMode.fill]; norm_num) (by decide)
  case Arabian =>
    exact steps_of_half_tones _ [2, 4, 5, 6, 8, 10] (by simp [MusicalMode.fill]; norm_num) (by decide)
  case Balinese =>
    exact steps_of_half_tones _ [1, 3, 7, 8] (by simp [MusicalMode.fill]; norm_num) (by decide)
  case Gypsy =>
    exact steps_of_half_tones _ [1, 4, 5, 7, 8, 11] (by simp [MusicalMode.fill]; norm_num) (by decide)
  case Mohammedan =>
    exact steps_of_half_tones _ [2, 3, 5, 7, 8, 11] (by simp [MusicalMode.fill]; norm_num) (by decide)
  case Javanese =>
    exact steps_of_half_tones _ [1, 3, 5, 7, 9, 10] (by simp [MusicalMode.fill]; norm_num) (by decide)
  case Persian =>
    exact steps_of_half_tones _ [1, 4, 5, 6, 8, 11] (by simp [MusicalMode.fill]; norm_num) (by decide)
  case Algerian =>
    exact steps_of_half_tones _ [2, 3, 6, 7, 8, 11, 12, 14, 15, 17] (by simp [MusicalMode.fill]; norm_num) (by decide)

/-- C23 at the mode `Dorian`, whose steps are 1.0, 1.5, 2.0, 3.0, 4.0, 4.5. -/
theorem fill_steps_increasing_witness :
    (MusicalMode.fill { steps := [] } MusicalMode.Type.Dorian).steps ≠ [] ∧
    (MusicalMode.fill { steps := [] } MusicalMode.Type.Dorian).steps.Pairwise
      (fun a b => a < b) ∧
    ∀ s ∈ (MusicalMode.fill { steps := [] } MusicalMode.Type.Dorian).steps,
      0 < s ∧ ∃ k : ℕ, 0 < k ∧ s = k * (0.5 : ℚ) :=
  fill_steps_increasing { steps := [] } MusicalMode.Type.Dorian (by decide) (by decide)

/-- C24, as stated, fails: the mode `Algerian` has ten steps, and the last four,
6.0, 7.0, 7.5 and 8.5, are not below 6.0. -/
theorem fill_Algerian_beyond_octave :
    (MusicalMode.fill { steps := [] } MusicalMode.Type.Algerian).steps
      = [1.0, 1.5, 3.0, 3.5, 4.0, 5.5, 6.0, 7.0, 7.5, 8.5] ∧
    (8.5 : ℚ) ∈ (MusicalMode.fill { steps := [] } MusicalMode.Type.Algerian).steps ∧
    ¬ ((8.5 : ℚ) < 6.0) ∧
    ¬ ∀ s ∈ (MusicalMode.fill { steps := [] } MusicalMode.Type.Algerian).steps,
      0 < s ∧ s < (6.0 : ℚ) := by
  have hsteps : (MusicalMode.fill { steps := [] } MusicalMode.Type.Algerian).steps
      = [1.0, 1.5, 3.0, 3.5, 4.0, 5.5, 6.0, 7.0, 7.5, 8.5] := by
    simp [MusicalMode.fill]
  have hmem : (8.5 : ℚ) ∈ (MusicalMode.fill { steps := [] } MusicalMode.Type.Algerian).steps := by
    rw [hsteps]
    simp
  refine ⟨hsteps, hmem, by norm_num, ?_⟩
  intro h
  have h85 := (h 8.5 hmem).2
  norm_num at h85

/-- C24, amended: for every mode type other than `Random`, every step that
`MusicalMode::fill` produces lies above 0 and is at most 8.5; for every mode
type other than `Random` and `Algerian` it lies strictly between 0 and 6.0. -/
theorem fill_steps_in_octave (m : MusicalMode) (t : MusicalMode.Type)
    (h1 : t ≠ MusicalMode.Type.Random) :
    ∀ s ∈ (MusicalMode.fill m t).steps,
      0 < s ∧ s ≤ (8.5 : ℚ) ∧ (t ≠ MusicalMode.Type.Algerian → s < (6.0 : ℚ)) := by
  have key : ∀ s ∈ (MusicalMode.fill m t).steps, 0 < s ∧
      s ≤ (if t = MusicalMode.Type.Algerian then (17 : ℕ) else (11 : ℕ) : ℚ) * 0.5 := by
    cases t
    case Random => exact absurd rfl h1
    case Dorian =>
      exact steps_up_to _ [2, 3, 4, 6, 8, 9] 11 (by simp [MusicalMode.fill]; norm_num) (by decide)
    case Ionian =>
      exact steps_up_to _ [2, 4, 5, 7, 9, 11] 11 (by simp [MusicalMode.fill]; norm_num) (by decide)
    case Phrygian =>
      exact steps_up_to _ [1, 3, 5, 7, 8, 10] 11 (by simp [MusicalMode.fill]; norm_num) (by decide)
    case Lydian =>
      exact steps_up_to _ [2, 4, 6, 7, 9, 11] 11 (by simp [MusicalMode.fill]; norm_num) (by decide)
    case Mixolydian =>
      exact steps_up_to _ [2, 4, 5, 7, 9, 10] 11 (by simp [MusicalMode.fill]; norm_num) (by decide)
    case Aeolian =>
      exact steps_up_to _ [2, 3, 5, 7, 8, 10] 11 (by simp [MusicalMode.fill]; norm_num) (by decide)
    case Locrian =>
      exact steps_up_to _ [1, 3, 4, 6, 8, 10] 11 (by simp [MusicalMode.fill]; norm_num) (by decide)
    case PentatonicMajor =>
      exact steps_up_to _ [2, 4, 5, 7] 11 (by simp [MusicalMode.fill]; norm_num) (by decide)
    case PentatonicMinor =>
      exact steps_up_to _ [3, 5, 7, 10] 11 (by simp [MusicalMode.fill]; norm_num) (by decide)
    case MajorChord =>
      exact steps_up_to _ [4, 7] 11 (by simp [MusicalMode.fill]; norm_num) (by decide)
    case MinorChord =>
      exact steps_up_to _ [3, 7] 11 (by simp [MusicalMode.fill]; norm_num) (by decide)
    case Min7 =>
      exact steps_up_to _ [3, 7, 10] 11 (by simp [MusicalMode.fill]; norm_num) (by decide)
    case Sus4 =>
      exact steps_up_to _ [5, 7] 11 (by simp [MusicalMode.fill]; norm_num) (by decide)
    case Chromatic =>
      exact steps_up_to _ [1, 2, 3, 4, 5, 6, 7, 8, 9, 10, 11] 11 (by simp [MusicalMode.fill]; norm_num) (by decide)
    case BluesScale =>
      exact steps_up_to _ [2, 3, 5, 6, 7, 9, 10, 11] 11 (by simp [MusicalMode.fill]; norm_num) (by decide)
    case NeapolitanMinor =>
      exact steps_up_to _ [1, 3, 5, 5, 8, 11] 11 (by simp [MusicalMode.fill]; norm_num) (by decide)
    case NeapolitanMajor =>
      exact steps_up_to _ [1, 3, 5, 7, 9, 11] 11 (by simp [MusicalMode.fill]; norm_num) (by decide)
    case Oriental =>
      exact steps_up_to _ [1, 4, 5, 6, 9, 10] 11 (by simp [MusicalMode.fill]; norm_num) (by decide)
    case DoubleHarmonic =>
      exact steps_up_to _ [1, 4, 5, 7, 8, 11] 11 (by simp [MusicalMode.fill]; norm_num) (by decide)
    case Enigmatic =>
      exact steps_up_to _ [1, 4, 6, 8, 10, 11] 11 (by simp [MusicalMode.fill]; norm_num) (by decide)
    case Hirajoshi =>
      exact steps_up_to _ [2, 3, 7, 8] 11 (by simp [MusicalMode.fill]; norm_num) (by decide)
    case HungarianMinor =>
      exact steps_up_to _ [2, 3, 6, 7, 8, 11] 11 (by simp [MusicalMode.fill]; norm_num) (by decide)
    case HungarianMajor =>
      exact steps_up_to _ [2, 4, 6, 7, 8, 10] 11 (by simp [MusicalMode.fill]; norm_num) (by decide)
    case Kumoi =>
      exact steps_up_to _ [1, 5, 7, 8] 11 (by simp [MusicalMode.fill]; norm_num) (by decide)
    case Iwato =>
      exact steps_up_to _ [1, 5, 6, 10] 11 (by simp [MusicalMode.fill]; norm_num) (by decide)
    case Hindu =>
      exact steps_up_to _ [2, 4, 5, 7, 8, 10] 11 (by simp [MusicalMode.fill]; norm_num) (by decide)
    case Spanish8Tone =>
      exact steps_up_to _ [1, 3, 4, 5, 6, 8, 10] 11 (by simp [MusicalMode.fill]; norm_num) (by decide)
    case Pelog =>
      exact steps_up_to _ [1, 3, 7, 10] 11 (by simp [MusicalMode.fill]; norm_num) (by decide)
    case HungarianGypsy =>
      exact steps_up_to _ [2, 3, 6, 7, 8, 10] 11 (by simp [MusicalMode.fill]; norm_num) (by decide)
    case Overtone =>
      exact steps_up_to _ [2, 4, 6, 7, 9, 10] 11 (by simp [MusicalMode.fill]; norm_num) (by decide)
    case LeadingWholeTone =>
      exact steps_up_to _ [2, 4, 6, 8, 10, 11] 11 (by simp [MusicalMode.fill]; norm_num) (by decide)
    case Arabian =>
      exact steps_up_to _ [2, 4, 5, 6, 8, 10] 11 (by simp [MusicalMode.fill]; norm_num) (by decide)
    case Balinese =>
      exact steps_up_to _ [1, 3, 7, 8] 11 (by simp [MusicalMode.fill]; norm_num) (by decide)
    case Gypsy =>
      exact steps_up_to _ [1, 4, 5, 7, 8, 11] 11 (by simp [MusicalMode.fill]; norm_num) (by decide)
    case Mohammedan =>
      exact steps_up_to _ [2, 3, 5, 7, 8, 11] 11 (by simp [MusicalMode.fill]; norm_num) (by decide)
    case Javanese =>
      exact steps_up_to _ [1, 3, 5, 7, 9, 10] 11 (by simp [MusicalMode.fill]; norm_num) (by decide)
    case Persian =>
      exact steps_up_to _ [1, 4, 5, 6, 8, 11] 11 (by simp [MusicalMode.fill]; norm_num) (by decide)
    case Algerian =>
      exact steps_up_to _ [2, 3, 6, 7, 8, 11, 12, 14, 15, 17] 17 (by simp [MusicalMode.fill]; norm_num) (by decide)
  intro s hs
  have h := key s hs
  by_cases ht : t = MusicalMode.Type.Algerian
  · simp only [ht, if_true] at h
    refine ⟨h.1, ?_, fun hne => absurd ht hne⟩
    have h2 := h.2
    norm_num at h2 ⊢
    exact h2
  · simp only [ht, if_false] at h
    have h2 := h.2
    norm_num at h2
    refine ⟨h.1, ?_, fun _ => ?_⟩
    · norm_num
      linarith
    · norm_num
      linarith

/-- The amended C24 at the mode `Chromatic` and its last step, 5.5. -/
theorem fill_steps_in_octave_witness :
    (5.5 : ℚ) ∈ (MusicalMode.fill { steps := [] } MusicalMode.Type.Chromatic).steps ∧
    (0 < (5.5 : ℚ) ∧ (5.5 : ℚ) ≤ (8.5 : ℚ) ∧
      (MusicalMode.Type.Chromatic ≠ MusicalMode.Type.Algerian → (5.5 : ℚ) < (6.0 : ℚ))) :=
  have hmem : (5.5 : ℚ) ∈
      (MusicalMode.fill { steps := [] } MusicalMode.Type.Chromatic).steps := by
    simp [MusicalMode.fill]
  ⟨hmem, fill_steps_in_octave { steps := [] } MusicalMode.Type.Chromatic (by decide) 5.5 hmem⟩
